import Mathlib

/-!
Verification development for the fx-bot trade-decision engine.

This file gives a shallow embedding, in Lean 4, of the pure decision
pipeline of the repository: candlestick predicates (candle_patterns.py),
chart-pattern detection (pattern_detector.py), support/resistance levels
(support_resistance.py), supply/demand zones and the multi-timeframe
fallback scan (supply_demand.py), the cross-timeframe reversal consensus
(reversal_signal.py), and the scoring/vote fragments of the orchestrator
(main.py).  Prices are modelled as rationals (the Python code uses IEEE
doubles; the decimal literals of the source are embedded as the exact
rationals they denote).  A pandas DataFrame of OHLC rows is modelled as a
chronological `List Bar`, newest bar last, matching the way every function
of the repository indexes its frames.  Python functions that raise on
degenerate input (empty frame, zero window) are embedded as
Option-returning functions, `none` marking the raise.
-/

namespace FxBot

/-- Trade direction; the source uses the strings "BUY" and "SELL". -/
inductive Dir where
  | BUY
  | SELL
deriving DecidableEq, Repr, Fintype

/-- One OHLC bar (a row of the pandas frame).  The `open` column is called
`open_` because `open` is a Lean keyword. -/
structure Bar where
  open_ : ℚ
  high : ℚ
  low : ℚ
  close : ℚ
deriving DecidableEq, Repr

/-- Placeholder bar returned by out-of-range indexing helpers; every use
is guarded by the length checks that the Python code performs first. -/
def dummyBar : Bar := ⟨0, 0, 0, 0⟩

/-- Python `df.iloc[-k]` (k ≥ 1) on a frame of length ≥ k. -/
def ilocNeg (df : List Bar) (k : Nat) : Bar := df.getD (df.length - k) dummyBar

/-- Python `series[a:b]` positional slice. -/
def pySlice (l : List ℚ) (a b : Nat) : List ℚ := (l.drop a).take (b - a)

/-- Python `df.tail(n)` / `df.iloc[-n:]`: the last `n` rows. -/
def lastN (n : Nat) (df : List Bar) : List Bar := df.drop (df.length - n)

/-- The last `n` entries of a rational series. -/
def lastNQ (n : Nat) (l : List ℚ) : List ℚ := l.drop (l.length - n)

/-- The `open` column of a frame. -/
def opens (df : List Bar) : List ℚ := df.map (·.open_)

/-- The `high` column of a frame. -/
def highs (df : List Bar) : List ℚ := df.map (·.high)

/-- The `low` column of a frame. -/
def lows (df : List Bar) : List ℚ := df.map (·.low)

/-- The `close` column of a frame. -/
def closes (df : List Bar) : List ℚ := df.map (·.close)

/-- Pandas `series.min()` for a nonempty series (NaN on the empty series;
callers in the source only evaluate it on nonempty ones). -/
def listMin (l : List ℚ) : ℚ :=
  match l with
  | [] => 0
  | x :: xs => xs.foldl min x

/-- Pandas `series.max()` for a nonempty series. -/
def listMax (l : List ℚ) : ℚ :=
  match l with
  | [] => 0
  | x :: xs => xs.foldl max x

/-- Pandas `series.mean()` for a nonempty series. -/
def listMean (l : List ℚ) : ℚ := l.sum / (l.length : ℚ)

/-- `np.sign` on a rational. -/
def signQ (q : ℚ) : ℚ := if 0 < q then 1 else if q < 0 then -1 else 0

/-- Python `sorted(l)`: stable ascending sort. -/
def sortedAsc (l : List ℚ) : List ℚ := List.insertionSort (· ≤ ·) l

/-- Python `sorted(l, reverse=True)`: stable descending sort. -/
def sortedDesc (l : List ℚ) : List ℚ := List.insertionSort (· ≥ ·) l

/-- Python `pat in s` on strings (substring test). -/
def containsSub (s pat : String) : Bool :=
  (List.range (s.toList.length + 1)).any
    (fun i => decide ((s.toList.drop i).take pat.toList.length = pat.toList))

/-!
## candle_patterns.py

Each predicate looks at the last one to three bars and first checks that
the frame is long enough, returning `False` otherwise.
-/

/-- candle_patterns.is_bullish_engulfing -/
def is_bullish_engulfing (df : List Bar) : Bool :=
  if df.length < 2 then false else
  let prev := ilocNeg df 2
  let curr := ilocNeg df 1
  decide (prev.close < prev.open_ ∧ curr.close > curr.open_ ∧
    curr.open_ < prev.close ∧ curr.close > prev.open_)

/-- candle_patterns.is_bearish_engulfing -/
def is_bearish_engulfing (df : List Bar) : Bool :=
  if df.length < 2 then false else
  let prev := ilocNeg df 2
  let curr := ilocNeg df 1
  decide (prev.close > prev.open_ ∧ curr.close < curr.open_ ∧
    curr.open_ > prev.close ∧ curr.close < prev.open_)

/-- candle_patterns.is_hammer -/
def is_hammer (df : List Bar) : Bool :=
  if df.length < 1 then false else
  let c := ilocNeg df 1
  let body := |c.close - c.open_|
  let lowerWick := min c.close c.open_ - c.low
  decide (lowerWick > 2 * body)

/-- candle_patterns.is_shooting_star -/
def is_shooting_star (df : List Bar) : Bool :=
  if df.length < 1 then false else
  let c := ilocNeg df 1
  let body := |c.close - c.open_|
  let upperWick := c.high - max c.close c.open_
  decide (upperWick > 2 * body)

/-- candle_patterns.is_doji -/
def is_doji (df : List Bar) : Bool :=
  if df.length < 1 then false else
  let c := ilocNeg df 1
  decide (|c.close - c.open_| < (1/10) * (c.high - c.low))

/-- candle_patterns.is_morning_star -/
def is_morning_star (df : List Bar) : Bool :=
  if df.length < 3 then false else
  let a := ilocNeg df 3
  let b := ilocNeg df 2
  let c := ilocNeg df 1
  decide (a.close < a.open_ ∧ |b.close - b.open_| < (2/10) * (b.high - b.low) ∧
    c.close > c.open_ ∧ c.close > (a.open_ + a.close) / 2)

/-- candle_patterns.is_evening_star -/
def is_evening_star (df : List Bar) : Bool :=
  if df.length < 3 then false else
  let a := ilocNeg df 3
  let b := ilocNeg df 2
  let c := ilocNeg df 1
  decide (a.close > a.open_ ∧ |b.close - b.open_| < (2/10) * (b.high - b.low) ∧
    c.close < c.open_ ∧ c.close < (a.open_ + a.close) / 2)

/-- candle_patterns.is_gravestone_doji -/
def is_gravestone_doji (df : List Bar) : Bool :=
  if df.length < 1 then false else
  let c := ilocNeg df 1
  let body := |c.open_ - c.close|
  decide (body < (1/10) * (c.high - c.low) ∧ c.high - max c.open_ c.close > 2 * body)

/-- candle_patterns.is_dragonfly_doji -/
def is_dragonfly_doji (df : List Bar) : Bool :=
  if df.length < 1 then false else
  let c := ilocNeg df 1
  let body := |c.open_ - c.close|
  decide (body < (1/10) * (c.high - c.low) ∧ min c.open_ c.close - c.low > 2 * body)

/-- candle_patterns.is_tweezer_top -/
def is_tweezer_top (df : List Bar) : Bool :=
  if df.length < 2 then false else
  let a := ilocNeg df 2
  let b := ilocNeg df 1
  decide (|a.high - b.high| < 1/100000 ∧ a.close > a.open_ ∧ b.close < b.open_)

/-- candle_patterns.is_tweezer_bottom -/
def is_tweezer_bottom (df : List Bar) : Bool :=
  if df.length < 2 then false else
  let a := ilocNeg df 2
  let b := ilocNeg df 1
  decide (|a.low - b.low| < 1/100000 ∧ a.close < a.open_ ∧ b.close > b.open_)

/-- candle_patterns.is_bullish_harami -/
def is_bullish_harami (df : List Bar) : Bool :=
  if df.length < 2 then false else
  let a := ilocNeg df 2
  let b := ilocNeg df 1
  decide (a.close < a.open_ ∧ b.close > b.open_ ∧ b.open_ > a.close ∧ b.close < a.open_)

/-- candle_patterns.is_bearish_harami -/
def is_bearish_harami (df : List Bar) : Bool :=
  if df.length < 2 then false else
  let a := ilocNeg df 2
  let b := ilocNeg df 1
  decide (a.close > a.open_ ∧ b.close < b.open_ ∧ b.open_ < a.close ∧ b.close > a.open_)

/-- candle_patterns.BUY_PATTERNS -/
def BUY_PATTERNS : List (List Bar → Bool) :=
  [is_bullish_engulfing, is_hammer, is_dragonfly_doji, is_tweezer_bottom,
   is_bullish_harami, is_morning_star]

/-- candle_patterns.SELL_PATTERNS -/
def SELL_PATTERNS : List (List Bar → Bool) :=
  [is_bearish_engulfing, is_shooting_star, is_gravestone_doji, is_tweezer_top,
   is_bearish_harami, is_evening_star]

/-!
## support_resistance.py
-/

/-- The swing-high test of support_resistance.find_nearest_levels at index
`i`: the high at `i` strictly exceeds every high in the `window` bars on
each side (`all` of an empty slice is vacuously true, as in Python). -/
def swingHighAt (highsL : List ℚ) (window i : Nat) : Bool :=
  let hi := highsL.getD i 0
  (pySlice highsL (i - window) i).all (fun x => decide (hi > x)) &&
  (pySlice highsL (i + 1) (i + 1 + window)).all (fun x => decide (hi > x))

/-- The swing-low test of support_resistance.find_nearest_levels at index
`i`. -/
def swingLowAt (lowsL : List ℚ) (window i : Nat) : Bool :=
  let lo := lowsL.getD i 0
  (pySlice lowsL (i - window) i).all (fun x => decide (lo < x)) &&
  (pySlice lowsL (i + 1) (i + 1 + window)).all (fun x => decide (lo < x))

/-- support_resistance.find_nearest_levels.  The scan runs over
`range(window, min(max(len(df) - window, 0), lookback))` and collects the
swing highs into `resistances` and the swing lows into `supports`; the
result keeps the levels on the correct side of the last close, sorted by
distance, truncated to `max_levels`.  `none` models the IndexError the
Python code raises on an empty frame (`df['close'].iloc[-1]`). -/
def find_nearest_levels (df : List Bar) (window : Nat := 20) (lookback : Nat := 1000)
    (maxLevels : Nat := 3) : Option (List ℚ × List ℚ) :=
  if df.isEmpty then none else
  let highsL := highs df
  let lowsL := lows df
  let recentClose := (closes df).getD (df.length - 1) 0
  let maxIndex := min (df.length - window) lookback
  let collected := (List.range' window (maxIndex - window)).foldl
    (fun (acc : List ℚ × List ℚ) i =>
      let acc1 := if swingHighAt highsL window i then (acc.1, acc.2 ++ [highsL.getD i 0]) else acc
      if swingLowAt lowsL window i then (acc1.1 ++ [lowsL.getD i 0], acc1.2) else acc1)
    ([], [])
  some ((sortedDesc (collected.1.filter (fun s => decide (s < recentClose)))).take maxLevels,
        (sortedAsc (collected.2.filter (fun r => decide (r > recentClose)))).take maxLevels)

/-- support_resistance.is_near_support_or_resistance -/
def is_near_support_or_resistance (price : ℚ) (supportLevels resistanceLevels : List ℚ)
    (threshold : ℚ) : Bool :=
  (supportLevels ++ resistanceLevels).any (fun lvl => decide (|price - lvl| ≤ threshold))

/-!
## indicators.py (the ATR used by the zone engine)
-/

/-- True range of one bar given the previous close, when there is one:
`max(high - low, |high - prev_close|, |low - prev_close|)`.  On the first
row pandas drops the NaN shifted entries and keeps `high - low`. -/
def trueRanges (df : List Bar) : List ℚ :=
  match df with
  | [] => []
  | b0 :: _ =>
    (b0.high - b0.low) ::
      (df.zip (df.drop 1)).map
        (fun p => max (p.2.high - p.2.low)
          (max (|p.2.high - p.1.close|) (|p.2.low - p.1.close|)))

/-- The last entry of `ATR_14` (indicators._atr with period 14): the mean
of the last 14 true ranges.  `none` models the NaN that pandas produces
when fewer than 14 rows exist. -/
def atr14Last (df : List Bar) : Option ℚ :=
  if df.length < 14 then none
  else some (listMean (lastNQ 14 (trueRanges df)))

/-!
## supply_demand.py
-/

/-- supply_demand.ENABLE_ATR_FILTER (consolidation filter switch, off). -/
def ENABLE_ATR_FILTER : Bool := false

/-- supply_demand.ENABLE_BREAKOUT_FILTER (breakout filter switch, off). -/
def ENABLE_BREAKOUT_FILTER : Bool := false

/-- supply_demand.M15_PAD_FACTOR -/
def M15_PAD_FACTOR : ℚ := 1/2

/-- supply_demand.JPY_ABS_PAD -/
def JPY_ABS_PAD : ℚ := 1/100

/-- supply_demand.PATTERN_LOOKBACK -/
def PATTERN_LOOKBACK : Nat := 3

/-- A zone interval `(low, high)`. -/
abbrev Zone := ℚ × ℚ

/-- supply_demand.get_zone_tolerance -/
def get_zone_tolerance (symbol : String) : ℚ :=
  if containsSub symbol "XAU" then 1
  else if containsSub symbol "JPY" then 3/100
  else 3/10000

/-- The overlap test of supply_demand._merge_zones:
`not (high < ex_low or low > ex_high)`. -/
def zonesOverlap (z m : Zone) : Bool := !(decide (z.2 < m.1) || decide (z.1 > m.2))

/-- The inner loop of supply_demand._merge_zones: scan the accumulated
zones in order; the first zone overlapping the incoming interval absorbs
it (union of the two intervals) and the loop breaks; with no overlap the
interval is appended at the end. -/
def insertZone (merged : List Zone) (z : Zone) : List Zone :=
  match merged with
  | [] => [z]
  | m :: rest =>
    if zonesOverlap z m then (min z.1 m.1, max z.2 m.2) :: rest
    else m :: insertZone rest z

/-- Python `l[-k:]`: the last `k` elements, except that `k = 0` yields the
whole list (`l[-0:]` is `l[0:]`). -/
def pyTailSlice (l : List Zone) (k : Nat) : List Zone :=
  if k = 0 then l else l.drop (l.length - k)

/-- supply_demand._merge_zones: one pass over the candidate intervals,
skipping degenerate ones (`low == high`), merging each into the first
overlapping accumulated zone, then keeping `merged[-max_zones:]`. -/
def _merge_zones (zones : List Zone) (maxZones : Nat) : List Zone :=
  pyTailSlice (zones.foldl (fun merged z => if z.1 = z.2 then merged else insertZone merged z) [])
    maxZones

/-- The spread-versus-ATR consolidation test of supply_demand.find_zones;
with the ATR filter disabled it is always satisfied.  A NaN ATR (series
shorter than the ATR period) fails the comparison, as in pandas. -/
def okSpread (spread rangeFactor : ℚ) (atr : Option ℚ) : Bool :=
  !ENABLE_ATR_FILTER || (match atr with
    | some a => decide (spread < rangeFactor * a)
    | none => false)

/-- The net-move breakout test of supply_demand.find_zones; with the
breakout filter disabled it is always satisfied. -/
def okBreak (move breakoutMult : ℚ) (atr : Option ℚ) : Bool :=
  !ENABLE_BREAKOUT_FILTER || (match atr with
    | some a => decide (move > breakoutMult * a)
    | none => false)

/-- supply_demand.find_zones.  Every window of `window` consecutive bars
starting at `start ∈ range(len(df) - window)` is a candidate; subject to
the (disabled) spread and breakout filters, a window whose close rose is a
demand candidate and one whose close fell (or was flat) a supply
candidate; degenerate windows (`low == high`) are dropped, then each side
is merged by `_merge_zones`.  `none` models the IndexError raised on an
empty frame (`df['atr_14'].iat[-1]`) and on a zero window
(`w['close'].iat[0]` on an empty window). -/
def find_zones (df : List Bar) (window : Nat := 20) (rangeFactor : ℚ := 1)
    (breakoutMult : ℚ := 1/10) (maxZones : Nat := 3) : Option (List Zone × List Zone) :=
  if df.isEmpty || window = 0 then none else
  let atr := atr14Last df
  let cands := (List.range (df.length - window)).foldl
    (fun (acc : List Zone × List Zone) start =>
      let w := (df.drop start).take window
      let spread := listMax (highs w) - listMin (lows w)
      let fc := (closes w).getD 0 0
      let lc := (closes w).getD (w.length - 1) 0
      let move := |lc - fc|
      if okSpread spread rangeFactor atr && okBreak move breakoutMult atr then
        let low := listMin (lows w)
        let high := listMax (highs w)
        if low = high then acc
        else if lc > fc then (acc.1 ++ [(low, high)], acc.2)
        else (acc.1, acc.2 ++ [(low, high)])
      else acc)
    ([], [])
  some (_merge_zones cands.1 maxZones, _merge_zones cands.2 maxZones)

/-- supply_demand.find_m30_zones -/
def find_m30_zones (df : List Bar) : Option (List Zone × List Zone) :=
  find_zones df 20 1 (1/10) 3

/-- supply_demand.find_h1_zones -/
def find_h1_zones (df : List Bar) : Option (List Zone × List Zone) :=
  find_zones df 20 1 (1/10) 3

/-- supply_demand.find_h2_zones -/
def find_h2_zones (df : List Bar) : Option (List Zone × List Zone) :=
  find_zones df 25 1 (1/10) 3

/-- supply_demand.find_h4_zones -/
def find_h4_zones (df : List Bar) : Option (List Zone × List Zone) :=
  find_zones df 30 1 (1/10) 3

/-- supply_demand.find_d1_zones -/
def find_d1_zones (df : List Bar) : Option (List Zone × List Zone) :=
  find_zones df 10 1 (1/10) 2

/-!
## pattern_detector.py

The module prefers scipy.signal.argrelextrema when that external library
is importable; the implementation embedded here is the in-repository
fallback `_extrema`, the only extrema code the repository itself defines.
-/

/-- The local-minimum test of pattern_detector._extrema at index `i`. -/
def isLocalMinAt (vals : List ℚ) (order i : Nat) : Bool :=
  let v := vals.getD i 0
  (pySlice vals (i - order) i).all (fun x => decide (v ≤ x)) &&
  (pySlice vals (i + 1) (i + 1 + order)).all (fun x => decide (v ≤ x))

/-- The local-maximum test of pattern_detector._extrema at index `i`. -/
def isLocalMaxAt (vals : List ℚ) (order i : Nat) : Bool :=
  let v := vals.getD i 0
  (pySlice vals (i - order) i).all (fun x => decide (v ≥ x)) &&
  (pySlice vals (i + 1) (i + 1 + order)).all (fun x => decide (v ≥ x))

/-- pattern_detector._extrema (non-scipy branch): indices
`i ∈ range(order, n - order)` that are ≤ (respectively ≥) everything in
the `order`-neighbourhood on each side. -/
def findLocalExtrema (vals : List ℚ) (order : Nat := 5) : List Nat × List Nat :=
  let idxs := List.range' order (vals.length - order - order)
  (idxs.filter (isLocalMinAt vals order), idxs.filter (isLocalMaxAt vals order))

/-- Values of a series at a list of indices (`series.iloc[idxs]`). -/
def valsAt (vals : List ℚ) (idxs : List Nat) : List ℚ := idxs.map (fun i => vals.getD i 0)

/-- The last `n` indices of an index list (`idxs[-n:]`, n ≥ 1). -/
def idxLastN (n : Nat) (idxs : List Nat) : List Nat := idxs.drop (idxs.length - n)

/-- pattern_detector.detect_double_bottom -/
def detect_double_bottom (df : List Bar) : Bool :=
  let localMin := (findLocalExtrema (lows df) 5).1
  if localMin.length < 2 then false else
  let l1 := (lows df).getD (localMin.getD (localMin.length - 1) 0) 0
  let l2 := (lows df).getD (localMin.getD (localMin.length - 2) 0) 0
  decide (|l1 - l2| < 1/1000)

/-- pattern_detector.detect_double_top -/
def detect_double_top (df : List Bar) : Bool :=
  let localMax := (findLocalExtrema (highs df) 5).2
  if localMax.length < 2 then false else
  let h1 := (highs df).getD (localMax.getD (localMax.length - 1) 0) 0
  let h2 := (highs df).getD (localMax.getD (localMax.length - 2) 0) 0
  decide (|h1 - h2| < 1/1000)

/-- pattern_detector.detect_rectangle.  The empty-frame case is `false`
because the pandas max/mean of an empty frame is NaN and every NaN
comparison is false. -/
def detect_rectangle (df : List Bar) (tolerance : ℚ := 2/1000) : Bool :=
  if df.isEmpty then false else
  let spread := listMax (highs df) - listMin (lows df)
  let avgClose := listMean (closes df)
  decide (spread ≤ tolerance * avgClose)

/-- pattern_detector.detect_head_and_shoulders.  Both extrema lists come
from the `low` column (as in the source), the maxima indices then being
used to read the `high` column. -/
def detect_head_and_shoulders (df : List Bar) : Bool :=
  let ex := findLocalExtrema (lows df) 5
  let lowMins := ex.1
  let highMaxs := ex.2
  if highMaxs.length < 3 || lowMins.length < 2 then false else
  match valsAt (highs df) (idxLastN 3 highMaxs), valsAt (lows df) (idxLastN 2 lowMins) with
  | [left, head, right], [valley1, valley2] =>
    decide (head > left ∧ head > right) &&
    decide (|left - right| / max left right < 3/100) &&
    decide (valley1 < left ∧ valley2 < right)
  | _, _ => false

/-- pattern_detector.detect_inverse_head_and_shoulders (extrema again both
from the `low` column). -/
def detect_inverse_head_and_shoulders (df : List Bar) : Bool :=
  let ex := findLocalExtrema (lows df) 5
  let lowMins := ex.1
  let highMaxs := ex.2
  if lowMins.length < 3 || highMaxs.length < 2 then false else
  match valsAt (lows df) (idxLastN 3 lowMins), valsAt (highs df) (idxLastN 2 highMaxs) with
  | [left, head, right], [peak1, peak2] =>
    decide (head < left ∧ head < right) &&
    decide (|left - right| / max left right < 3/100) &&
    decide (peak1 > head ∧ peak2 > head)
  | _, _ => false

/-- pattern_detector.detect_ascending_triangle -/
def detect_ascending_triangle (df : List Bar) (tol : ℚ := 5/1000) : Bool :=
  let lowIdxs := (findLocalExtrema (lows df) 5).1
  let highIdxs := (findLocalExtrema (highs df) 5).2
  if lowIdxs.length < 2 || highIdxs.length < 2 then false else
  match valsAt (lows df) (idxLastN 2 lowIdxs), valsAt (highs df) (idxLastN 2 highIdxs) with
  | [lv0, lv1], [hv0, hv1] =>
    decide (lv1 > lv0) && decide (|hv1 - hv0| / listMean [hv0, hv1] < tol)
  | _, _ => false

/-- pattern_detector.detect_descending_triangle -/
def detect_descending_triangle (df : List Bar) (tol : ℚ := 5/1000) : Bool :=
  let lowIdxs := (findLocalExtrema (lows df) 5).1
  let highIdxs := (findLocalExtrema (highs df) 5).2
  if lowIdxs.length < 2 || highIdxs.length < 2 then false else
  match valsAt (lows df) (idxLastN 2 lowIdxs), valsAt (highs df) (idxLastN 2 highIdxs) with
  | [lv0, lv1], [hv0, hv1] =>
    decide (|lv1 - lv0| / listMean [lv0, lv1] < tol) && decide (hv1 < hv0)
  | _, _ => false

/-- pattern_detector.detect_symmetric_triangle -/
def detect_symmetric_triangle (df : List Bar) (tol : ℚ := 1/100) : Bool :=
  let lowIdxs := (findLocalExtrema (lows df) 5).1
  let highIdxs := (findLocalExtrema (highs df) 5).2
  if lowIdxs.length < 2 || highIdxs.length < 2 then false else
  match valsAt (lows df) (idxLastN 2 lowIdxs), valsAt (highs df) (idxLastN 2 highIdxs) with
  | [lv0, lv1], [hv0, hv1] =>
    decide (lv1 > lv0) && decide (hv1 < hv0) &&
    decide (hv1 - lv1 < (hv0 - lv0) * (1 - tol))
  | _, _ => false

/-- pattern_detector.detect_wedge -/
def detect_wedge (df : List Bar) : Bool :=
  let lowIdxs := (findLocalExtrema (lows df) 5).1
  let highIdxs := (findLocalExtrema (highs df) 5).2
  if lowIdxs.length < 2 || highIdxs.length < 2 then false else
  match valsAt (lows df) (idxLastN 2 lowIdxs), valsAt (highs df) (idxLastN 2 highIdxs) with
  | [lv0, lv1], [hv0, hv1] =>
    decide ((lv1 - lv0) * (hv1 - hv0) > 0) && decide (hv1 - lv1 < hv0 - lv0)
  | _, _ => false

/-- pattern_detector.detect_flag -/
def detect_flag (df : List Bar) (tolerance : ℚ := 3/1000) : Bool :=
  let n := df.length
  if n < 10 then false else
  let half := df.take (n / 2)
  let poleMove := |(closes half).getD (half.length - 1) 0 - (closes half).getD 0 0| /
    (closes half).getD 0 0
  decide (poleMove > 2/100) && detect_rectangle (df.drop (n / 2)) tolerance

/-- pattern_detector.detect_pennant.  Python `df.iloc[-n//3:]` keeps the
last `ceil(n/3)` rows because `-n//3` floors toward minus infinity. -/
def detect_pennant (df : List Bar) : Bool :=
  let n := df.length
  if n < 10 then false else
  detect_wedge (lastN ((n + 2) / 3) df)

/-- pattern_detector.detect_cup_and_handle -/
def detect_cup_and_handle (df : List Bar) : Bool :=
  let n := df.length
  if n < 12 then false else
  let third := n / 3
  let cup := df.take (2 * third)
  let handle := df.drop (2 * third)
  let hs := highs cup
  if decide (|hs.getD 0 0 - hs.getD (hs.length - 1) 0| / listMean hs > 1/100) then false else
  if decide (listMin (lows cup) > listMean hs * (98/100)) then false else
  detect_rectangle handle (5/1000)

/-- A pattern-detector table entry: predicate, implied direction (`none`
for the directionless patterns), display name. -/
structure PatternEntry where
  detect : List Bar → Bool
  dir : Option Dir
  name : String

/-- The dictionary `{"direction": ..., "pattern": ...}` that
pattern_detector.detect_pattern returns. -/
structure PatternMatch where
  direction : Option Dir
  pattern : String
deriving DecidableEq, Repr

/-- The PatternMatch built from a table entry. -/
def entryMatch (e : PatternEntry) : PatternMatch := ⟨e.dir, e.name⟩

/-- The fixed priority list of pattern_detector.detect_pattern. -/
def patternEntries : List PatternEntry :=
  [⟨detect_double_bottom, some Dir.BUY, "Double Bottom"⟩,
   ⟨detect_double_top, some Dir.SELL, "Double Top"⟩,
   ⟨detect_head_and_shoulders, some Dir.SELL, "Head and Shoulders"⟩,
   ⟨detect_inverse_head_and_shoulders, some Dir.BUY, "Inverse Head and Shoulders"⟩,
   ⟨(detect_ascending_triangle · (5/1000)), some Dir.BUY, "Ascending Triangle"⟩,
   ⟨(detect_descending_triangle · (5/1000)), some Dir.SELL, "Descending Triangle"⟩,
   ⟨(detect_symmetric_triangle · (1/100)), none, "Symmetric Triangle"⟩,
   ⟨detect_wedge, none, "Wedge"⟩,
   ⟨(detect_flag · (3/1000)), none, "Flag"⟩,
   ⟨detect_pennant, none, "Pennant"⟩,
   ⟨detect_cup_and_handle, some Dir.BUY, "Cup and Handle"⟩,
   ⟨(detect_rectangle · (2/1000)), none, "Rectangle"⟩]

/-- Python `expected_direction and direction == expected_direction`: the
expected direction is given (truthy) and the entry direction equals it. -/
def expectedMatches (expected entryDir : Option Dir) : Bool :=
  match expected with
  | some d => decide (entryDir = some d)
  | none => false

/-- The loop of pattern_detector.detect_pattern: on a hit whose direction
equals the (given) expected direction, return at once; otherwise remember
the first hit as the fallback and keep scanning; return the fallback at
the end. -/
def detectLoop (entries : List PatternEntry) (df : List Bar) (expected : Option Dir)
    (fallback : Option PatternMatch) : Option PatternMatch :=
  match entries with
  | [] => fallback
  | e :: rest =>
    if e.detect df then
      if expectedMatches expected e.dir then some (entryMatch e)
      else
        detectLoop rest df expected (match fallback with
          | none => some (entryMatch e)
          | some f => some f)
    else detectLoop rest df expected fallback

/-- pattern_detector.detect_pattern -/
def detect_pattern (df : List Bar) (expected : Option Dir) : Option PatternMatch :=
  detectLoop patternEntries df expected none

/-!
## reversal_signal.py
-/

/-- reversal_signal._pip_size (symbols are passed upper-case). -/
def _pip_size (symbol : String) : ℚ :=
  if containsSub symbol "XAU" then 1/10
  else if containsSub symbol "JPY" then 1/100
  else 1/10000

/-- reversal_signal.patterns: the reversal candle set, in source order. -/
def reversalPatterns : List (List Bar → Bool) :=
  [is_bullish_engulfing, is_bearish_engulfing, is_hammer, is_shooting_star,
   is_morning_star, is_evening_star, is_doji, is_gravestone_doji,
   is_dragonfly_doji, is_tweezer_top, is_tweezer_bottom,
   is_bullish_harami, is_bearish_harami]

/-- reversal_signal.REQUIRED_TIMEFRAMES, also the iteration order of the
TIMEFRAMES dict in detect_reversal_signal. -/
def REQUIRED_TIMEFRAMES : List String :=
  ["M1", "M5", "M15", "M30", "H1", "H2", "H4", "D1"]

/-- reversal_signal.TF_CANDLE_COUNTS with the `.get(label, 300)` default. -/
def TF_CANDLE_COUNTS (label : String) : Nat :=
  if label = "M1" then 5000 else if label = "M5" then 5000
  else if label = "M15" then 3000 else if label = "M30" then 1500
  else if label = "H1" then 1500 else if label = "H2" then 1500
  else if label = "H4" then 2000 else if label = "D1" then 2000
  else 300

/-- The sample variance used by `pandas Series.std()` (ddof = 1). -/
def sampleVar (xs : List ℚ) : ℚ :=
  ((xs.map (fun x => (x - listMean xs) ^ 2)).sum) / ((xs.length - 1 : ℕ) : ℚ)

/-- The comparison `series.std() < c`, rational-only: for the nonnegative
square root, `sqrt v < c` holds exactly when `0 ≤ c ∧ v < c ^ 2`, so the
comparison is embedded square-free.  Fewer than two samples give a NaN
standard deviation, and a NaN comparison is false. -/
def stdLt (xs : List ℚ) (c : ℚ) : Bool :=
  if xs.length < 2 then false
  else decide (0 ≤ c ∧ sampleVar xs < c ^ 2)

/-- The per-timeframe body of reversal_signal.detect_reversal_signal for
one fetched frame: the insufficient-data guard, the chop filter, the
candle-pattern sweep, the support/resistance ambiguity skip, and the
momentum-fade fallback, in source order.  A `false` result covers both
`continue` (skipped) and REJECTED outcomes: the timeframe does not
confirm. -/
def tfBody (dfFull : List Bar) (required : Nat) (symbol : String) (direction : Dir) : Bool :=
  if dfFull.length < required then false else
  let currentPrice := (closes dfFull).getD (dfFull.length - 1) 0
  let dfRecent := lastN required dfFull
  if dfRecent.isEmpty || dfRecent.length < 5 then false else
  let dirSigns := dfRecent.map (fun b => signQ (b.close - b.open_))
  let bodySizes := dfRecent.map (fun b => |b.close - b.open_|)
  let avgBody := listMean bodySizes
  if decide (dirSigns.sum ≤ 2) && stdLt bodySizes (avgBody * (1/2)) then false else
  let patternMatch := reversalPatterns.any (fun p => p dfRecent)
  let sr := (find_nearest_levels dfFull 20 500 3).getD ([], [])
  let pip := _pip_size symbol
  let nearZone := is_near_support_or_resistance currentPrice sr.1 sr.2 (20 * pip)
  let breakoutBuffer := max (10 * pip) (1/1000 * currentPrice)
  let brokeLevel :=
    match direction with
    | Dir.BUY => !sr.2.isEmpty && decide (currentPrice > listMax sr.2 + breakoutBuffer)
    | Dir.SELL => !sr.1.isEmpty && decide (currentPrice < listMin sr.1 - breakoutBuffer)
  if nearZone && !brokeLevel then false else
  let slopeRecent := (closes dfFull).getD (dfFull.length - 1) 0 -
    (closes dfFull).getD (dfFull.length - 5) 0
  let slopePrevious := (closes dfFull).getD (dfFull.length - 5) 0 -
    (closes dfFull).getD (dfFull.length - 10) 0
  let momentumFading := decide (|slopeRecent| < |slopePrevious|)
  let reversingCandles := (dirSigns.filter
    (fun s => s = (match direction with | Dir.BUY => -1 | Dir.SELL => 1))).length
  patternMatch || (momentumFading && decide (reversingCandles ≥ 2))

/-- One timeframe of detect_reversal_signal: fetch
`fetch_candles_fn(symbol, tf, TF_CANDLE_COUNTS[label])`, treat a missing
frame as not confirming, then run the per-timeframe body. -/
def tfConfirmed (label : String) (fetchFn : String → Nat → Option (List Bar))
    (symbol : String) (direction : Dir) : Bool :=
  match fetchFn label (TF_CANDLE_COUNTS label) with
  | none => false
  | some dfFull => tfBody dfFull (TF_CANDLE_COUNTS label) symbol direction

/-- reversal_signal.detect_reversal_signal: the proposed direction is
confirmed exactly when at least 4 of the 8 timeframes confirm.  The data
source (`fetch_candles`) is an external collaborator and is passed in, as
the `fetch_candles_fn` parameter of the source allows. -/
def detect_reversal_signal (fetchFn : String → Nat → Option (List Bar))
    (symbol : String) (direction : Dir) : Bool :=
  decide (4 ≤ (REQUIRED_TIMEFRAMES.filter
    (fun label => tfConfirmed label fetchFn symbol direction)).length)

/-!
## supply_demand.py: the multi-timeframe fallback scan
-/

/-- The in-zone test `low - zone_tol <= curr_price <= high + zone_tol` of
find_zones_fallback.  `none` models a NaN tolerance (M15 ATR itself NaN),
for which every comparison is false. -/
def inZoneTol (z : Zone) (tol : Option ℚ) (price : ℚ) : Bool :=
  match tol with
  | some t => decide (z.1 - t ≤ price ∧ price ≤ z.2 + t)
  | none => false

/-- The chart-pattern confirmation attempted first inside the zone loop of
find_zones_fallback: an M15 frame with at least PATTERN_LOOKBACK bars
whose detected pattern carries exactly the proposed direction. -/
def m15PatternConfirm (m15 : Option (List Bar)) (direction : Dir) : Bool :=
  match m15 with
  | none => false
  | some df =>
    if PATTERN_LOOKBACK ≤ df.length then
      match detect_pattern (lastN PATTERN_LOOKBACK df) (some direction) with
      | some pm => decide (pm.direction = some direction)
      | none => false
    else false

/-- The inner zone loop of find_zones_fallback: visit the zones of the
required side in order; on a zone containing the price try the chart
pattern, then the reversal consensus; either success returns, a miss
continues with the next zone. -/
def scanZones (zones : List Zone) (tol : Option ℚ) (currPrice : ℚ) (m15 : Option (List Bar))
    (direction : Dir) (fetchFn : String → Nat → Option (List Bar)) (symbol : String) : Bool :=
  match zones with
  | [] => false
  | z :: rest =>
    if inZoneTol z tol currPrice then
      if m15PatternConfirm m15 direction then true
      else if detect_reversal_signal fetchFn symbol direction then true
      else scanZones rest tol currPrice m15 direction fetchFn symbol
    else scanZones rest tol currPrice m15 direction fetchFn symbol

/-- The tf_finders table of find_zones_fallback, in iteration order. -/
def tfFinders : List (String × (List Bar → Option (List Zone × List Zone))) :=
  [("M30", find_m30_zones), ("H1", find_h1_zones), ("H2", find_h2_zones),
   ("H4", find_h4_zones), ("D1", find_d1_zones)]

/-- The timeframe loop of find_zones_fallback: skip absent or empty
frames, compute both zone sides, and return the first timeframe whose
required-side scan confirms, together with its full zone sets. -/
def fallbackLoop (fs : List (String × (List Bar → Option (List Zone × List Zone))))
    (dfDict : String → Option (List Bar)) (tol : Option ℚ) (direction : Dir) (currPrice : ℚ)
    (m15 : Option (List Bar)) (fetchFn : String → Nat → Option (List Bar)) (symbol : String) :
    Option (List Zone × List Zone × String) :=
  match fs with
  | [] => none
  | (tf, fn) :: rest =>
    match dfDict tf with
    | none => fallbackLoop rest dfDict tol direction currPrice m15 fetchFn symbol
    | some df =>
      if df.isEmpty then fallbackLoop rest dfDict tol direction currPrice m15 fetchFn symbol
      else
        let zs := (fn df).getD ([], [])
        let zones := match direction with | Dir.BUY => zs.1 | Dir.SELL => zs.2
        if scanZones zones tol currPrice m15 direction fetchFn symbol then some (zs.1, zs.2, tf)
        else fallbackLoop rest dfDict tol direction currPrice m15 fetchFn symbol

/-- supply_demand.find_zones_fallback.  `dfDict` is the timeframe → frame
mapping (`none` for an absent key); `m15HasAtrCol` states whether the M15
frame carries a lower-case `atr_14` column (the source checks the literal
lower-case name); `fetchFn` is the bar source the nested reversal
consensus uses.  When no timeframe confirms, the source logs the nearest
zone purely as a diagnostic and returns `([], [], None)`. -/
def find_zones_fallback (dfDict : String → Option (List Bar)) (direction : Dir)
    (currPrice : ℚ) (symbol : String) (m15HasAtrCol : Bool)
    (fetchFn : String → Nat → Option (List Bar)) : List Zone × List Zone × Option String :=
  let m15 := dfDict "M15"
  let staticTol : ℚ := if containsSub symbol "JPY" then JPY_ABS_PAD else get_zone_tolerance symbol
  let zoneTol : Option ℚ :=
    match m15 with
    | some df => if m15HasAtrCol then (atr14Last df).map (· * M15_PAD_FACTOR) else some staticTol
    | none => some staticTol
  match fallbackLoop tfFinders dfDict zoneTol direction currPrice m15 fetchFn symbol with
  | some r => (r.1, r.2.1, some r.2.2)
  | none => ([], [], none)

/-!
## main.py: the orchestrator fragments under test
-/

/-- The weight table of main.get_trade_decision, in source order. -/
def weights : List (String × ℚ) :=
  [("trend", 2/10), ("momentum", 2/10), ("rsi", 1/10), ("bollinger", 1/10),
   ("support_resistance", 15/100), ("candle", 15/100), ("chart", 1/10),
   ("trendline", 1/10)]

/-- Dictionary lookup in the weight table. -/
def weightOf (key : String) : ℚ :=
  (((weights.find? (fun kv => kv.1 = key)).map (fun kv => kv.2)).getD 0)

/-- The outcome of each agreement test feeding the score accumulation of
main.get_trade_decision, in the order the source adds them: trend
alignment, momentum alignment, RSI alignment, Bollinger alignment,
proximity to support/resistance, trendline respect, confirmed candlestick
pattern, chart pattern matching the direction. -/
structure ScoreFlags where
  trend : Bool
  momentum : Bool
  rsi : Bool
  bollinger : Bool
  nearZone : Bool
  trendline : Bool
  candle : Bool
  chart : Bool
deriving DecidableEq

/-- The score accumulation of main.get_trade_decision: start at 0 and add
the fixed weight of every agreeing sub-signal. -/
def accumulate_score (f : ScoreFlags) : ℚ :=
  (0 : ℚ) +
  (if f.trend then weightOf "trend" else 0) +
  (if f.momentum then weightOf "momentum" else 0) +
  (if f.rsi then weightOf "rsi" else 0) +
  (if f.bollinger then weightOf "bollinger" else 0) +
  (if f.nearZone then weightOf "support_resistance" else 0) +
  (if f.trendline then weightOf "trendline" else 0) +
  (if f.candle then weightOf "candle" else 0) +
  (if f.chart then weightOf "chart" else 0)

/-- The candidate list `[d for d in [momentum_dir, bollinger_dir, rsi_dir]
if d]` of the direction vote. -/
def mkDirections (momentumDir bollingerDir rsiDir : Option Dir) : List Dir :=
  [momentumDir, bollingerDir, rsiDir].filterMap id

/-- Python `max(iterable, key=lambda d: directions.count(d))`: the first
element of the iterable, in its iteration order, whose count is not
exceeded by a later one.  The source applies it to `set(directions)`, so
the iteration order of that set enumeration is the extra argument. -/
def pyMaxByCount (directions : List Dir) (order : List Dir) : Option Dir :=
  match order with
  | [] => none
  | h :: t => some (t.foldl (fun best x =>
      if directions.count x > directions.count best then x else best) h)

/-- The zone gate of main.get_trade_decision: after the fallback scan a
BUY needs a nonempty demand list and a SELL a nonempty supply list,
otherwise the symbol is rejected. -/
def zone_gate_passes (direction : Dir) (res : List Zone × List Zone × Option String) : Bool :=
  match direction with
  | Dir.BUY => !res.1.isEmpty
  | Dir.SELL => !res.2.1.isEmpty

/-!
## Concrete example data used by witnesses and counterexamples
-/

/-- A flat bullish bar with a long lower wick: `sign(close - open) = 1`
and the hammer predicate holds on it. -/
def bullHammerBar : Bar := ⟨1, 2, 0, 11/10⟩

/-- A synthetic bar source on which exactly the M30, H1, H2 and D1
timeframes of the reversal consensus confirm (the other four fetches
fail). -/
def fourConfirmFetch : String → Nat → Option (List Bar) := fun label count =>
  if label = "M30" ∨ label = "H1" ∨ label = "H2" ∨ label = "D1" then
    some (List.replicate count bullHammerBar)
  else none

/-- A synthetic bar source on which exactly the M30, H1 and H2 timeframes
of the reversal consensus confirm. -/
def threeConfirmFetch : String → Nat → Option (List Bar) := fun label count =>
  if label = "M30" ∨ label = "H1" ∨ label = "H2" then
    some (List.replicate count bullHammerBar)
  else none

/-- Ten bars with a single swing low (value 5) at index 1; the lows of
the three most recent bars are 50, 60 and 70. -/
def swingExampleBars : List Bar :=
  [⟨1, 10, 6, 100⟩, ⟨1, 10, 5, 100⟩, ⟨1, 10, 7, 100⟩, ⟨1, 10, 8, 100⟩, ⟨1, 10, 9, 100⟩,
   ⟨1, 10, 11, 100⟩, ⟨1, 10, 12, 100⟩, ⟨1, 10, 50, 100⟩, ⟨1, 10, 60, 100⟩, ⟨1, 10, 70, 100⟩]

/-- Twenty-one bars whose first window is a rising demand window. -/
def demandExampleBars : List Bar :=
  (⟨1, 3, 1, 1⟩ : Bar) :: List.replicate 20 (⟨1, 3, 1, 2⟩ : Bar)

/-- Three bars for the find_zones normalization witness. -/
def smallZoneBars : List Bar :=
  [⟨1, 4, 1, 1⟩, ⟨1, 5, 2, 3⟩, ⟨1, 6, 2, 3⟩]

/-- A timeframe map holding only an M30 frame with a nonempty demand
side; every other timeframe (including M15) is absent. -/
def c10DfDict : String → Option (List Bar) := fun tf =>
  if tf = "M30" then some demandExampleBars else none

end FxBot

namespace FxBot

/-!
## Generic helper lemmas
-/

/-- A fold whose body fixes the accumulator on every list element is the
identity. -/
theorem foldl_nop {ι α : Type} (l : List ι) (f : α → ι → α) (a : α)
    (h : ∀ acc i, i ∈ l → f acc i = acc) : l.foldl f a = a := by
  induction l generalizing a with
  | nil => rfl
  | cons x xs ih =>
    rw [List.foldl_cons, h a x (List.mem_cons_self x xs)]
    exact ih a (fun acc i hi => h acc i (List.mem_cons_of_mem x hi))

/-- `all` over a nonempty replicate list reduces to the predicate at the
replicated element. -/
theorem all_replicate_pos {α : Type} (n : Nat) (a : α) (p : α → Bool) (h : 0 < n) :
    (List.replicate n a).all p = p a := by
  cases n with
  | zero => omega
  | succ m =>
    induction m with
    | zero => simp
    | succ k ih => simp_all [List.replicate_succ, List.all_cons]

/-- `getD` on a replicate list inside bounds. -/
theorem getD_replicate_of_lt {α : Type} (n i : Nat) (a d : α) (h : i < n) :
    (List.replicate n a).getD i d = a := by
  induction n generalizing i with
  | zero => omega
  | succ m ih =>
    cases i with
    | zero => simp [List.replicate_succ]
    | succ j => simpa [List.replicate_succ] using ih j (by omega)

/-- The minimum fold of `listMin` is a lower bound for the members. -/
theorem listMin_le (l : List ℚ) (x : ℚ) (hx : x ∈ l) : listMin l ≤ x := by
  have key : ∀ (xs : List ℚ) (a : ℚ), xs.foldl min a ≤ a ∧ ∀ y ∈ xs, xs.foldl min a ≤ y := by
    intro xs
    induction xs with
    | nil => simp
    | cons z zs ih =>
      intro a
      refine ⟨le_trans (ih (min a z)).1 (min_le_left a z), ?_⟩
      intro y hy
      rcases List.mem_cons.mp hy with rfl | hy
      · exact le_trans (ih (min a y)).1 (min_le_right a y)
      · exact (ih (min a z)).2 y hy
  cases l with
  | nil => cases hx
  | cons a as =>
    rcases List.mem_cons.mp hx with rfl | hx
    · exact (key as x).1
    · exact (key as a).2 x hx

/-- The maximum fold of `listMax` is an upper bound for the members. -/
theorem le_listMax (l : List ℚ) (x : ℚ) (hx : x ∈ l) : x ≤ listMax l := by
  have key : ∀ (xs : List ℚ) (a : ℚ), a ≤ xs.foldl max a ∧ ∀ y ∈ xs, y ≤ xs.foldl max a := by
    intro xs
    induction xs with
    | nil => simp
    | cons z zs ih =>
      intro a
      refine ⟨le_trans (le_max_left a z) (ih (max a z)).1, ?_⟩
      intro y hy
      rcases List.mem_cons.mp hy with rfl | hy
      · exact le_trans (le_max_right a y) (ih (max a y)).1
      · exact (ih (max a z)).2 y hy
  cases l with
  | nil => cases hx
  | cons a as =>
    rcases List.mem_cons.mp hx with rfl | hx
    · exact (key as x).1
    · exact (key as a).2 x hx

/-!
## C7: short frames make every candlestick predicate false
-/

/-- C7.  Every candlestick predicate of candle_patterns.py returns false,
and in particular does not fault, on a frame shorter than its minimum bar
requirement: one bar for the single-candle predicates, two for the
two-candle predicates, three for the star patterns. -/
theorem candle_patterns_min_bars : ∀ df : List Bar,
    (df.length < 1 → is_hammer df = false ∧ is_shooting_star df = false ∧
      is_doji df = false ∧ is_gravestone_doji df = false ∧ is_dragonfly_doji df = false) ∧
    (df.length < 2 → is_bullish_engulfing df = false ∧ is_bearish_engulfing df = false ∧
      is_tweezer_top df = false ∧ is_tweezer_bottom df = false ∧
      is_bullish_harami df = false ∧ is_bearish_harami df = false) ∧
    (df.length < 3 → is_morning_star df = false ∧ is_evening_star df = false) := by
  intro df
  refine ⟨fun h => ?_, fun h => ?_, fun h => ?_⟩
  · simp [is_hammer, is_shooting_star, is_doji, is_gravestone_doji, is_dragonfly_doji, h]
  · simp [is_bullish_engulfing, is_bearish_engulfing, is_tweezer_top, is_tweezer_bottom,
      is_bullish_harami, is_bearish_harami, h]
  · simp [is_morning_star, is_evening_star, h]

/-- Witness for C7 at the empty frame. -/
theorem candle_patterns_min_bars_witness :
    (is_hammer ([] : List Bar) = false ∧ is_shooting_star ([] : List Bar) = false ∧
      is_doji ([] : List Bar) = false ∧ is_gravestone_doji ([] : List Bar) = false ∧
      is_dragonfly_doji ([] : List Bar) = false) ∧
    (is_bullish_engulfing ([] : List Bar) = false ∧ is_bearish_engulfing ([] : List Bar) = false ∧
      is_tweezer_top ([] : List Bar) = false ∧ is_tweezer_bottom ([] : List Bar) = false ∧
      is_bullish_harami ([] : List Bar) = false ∧ is_bearish_harami ([] : List Bar) = false) ∧
    (is_morning_star ([] : List Bar) = false ∧ is_evening_star ([] : List Bar) = false) :=
  ⟨(candle_patterns_min_bars []).1 (by decide),
   (candle_patterns_min_bars []).2.1 (by decide),
   (candle_patterns_min_bars []).2.2 (by decide)⟩

/-!
## C8: the selection contract of detect_pattern
-/

/-- With no expected direction the loop returns the remembered fallback
if any, else the first hit of the priority list. -/
theorem detectLoop_none_eq (entries : List PatternEntry) (df : List Bar) :
    ∀ fb, detectLoop entries df none fb =
      (match fb with
       | some f => some f
       | none => ((entries.filter (fun e => e.detect df)).head?).map entryMatch) := by
  induction entries with
  | nil => intro fb; cases fb <;> simp [detectLoop]
  | cons e rest ih =>
    intro fb
    by_cases hd : e.detect df
    · have hm : expectedMatches none e.dir = false := rfl
      cases fb with
      | none => simp [detectLoop, hd, hm, ih, List.filter_cons]
      | some f => simp [detectLoop, hd, hm, ih, List.filter_cons]
    · cases fb with
      | none => simp [detectLoop, hd, ih, List.filter_cons]
      | some f => simp [detectLoop, hd, ih, List.filter_cons]

/-- With an expected direction the loop returns the first hit whose
direction equals it when one exists, and otherwise falls back to the
remembered fallback or first hit. -/
theorem detectLoop_some_eq (entries : List PatternEntry) (df : List Bar) (d : Dir) :
    ∀ fb, detectLoop entries df (some d) fb =
      (match (entries.filter (fun e => e.detect df)).find?
          (fun e => decide (e.dir = some d)) with
       | some e => some (entryMatch e)
       | none =>
         (match fb with
          | some f => some f
          | none => ((entries.filter (fun e => e.detect df)).head?).map entryMatch)) := by
  induction entries with
  | nil => intro fb; cases fb <;> simp [detectLoop]
  | cons e rest ih =>
    intro fb
    by_cases hd : e.detect df
    · by_cases hm : e.dir = some d
      · simp [detectLoop, hd, expectedMatches, hm, List.filter_cons, List.find?]
      · have hm' : expectedMatches (some d) e.dir = false := by
          simp [expectedMatches, hm]
        cases fb with
        | none => simp [detectLoop, hd, hm', ih, List.filter_cons, List.find?, hm]
        | some f => simp [detectLoop, hd, hm', ih, List.filter_cons, List.find?, hm]
    · cases fb with
      | none => simp [detectLoop, hd, ih, List.filter_cons]
      | some f => simp [detectLoop, hd, ih, List.filter_cons]

/-- C8.  detect_pattern returns at most one match (it is Option-valued by
construction); with no expected direction it returns the first matching
detector in the fixed priority order (or none); with an expected
direction it returns the first matching detector whose implied direction
equals it, preferring that over any earlier match, and otherwise the
first match in priority order. -/
theorem detect_pattern_selection : ∀ df : List Bar,
    detect_pattern df none =
      ((patternEntries.filter (fun e => e.detect df)).head?).map entryMatch ∧
    ∀ d : Dir, detect_pattern df (some d) =
      (match (patternEntries.filter (fun e => e.detect df)).find?
          (fun e => decide (e.dir = some d)) with
       | some e => some (entryMatch e)
       | none => ((patternEntries.filter (fun e => e.detect df)).head?).map entryMatch) := by
  intro df
  constructor
  · simpa using detectLoop_none_eq patternEntries df none
  · intro d
    simpa using detectLoop_some_eq patternEntries df d none

/-!
## C1: the score weights and the score range
-/

unseal Rat.add Rat.sub Rat.mul Rat.inv in
/-- Counterexample for C1: the eight weights of main.get_trade_decision
sum to 11/10, not 1, and the score with every sub-signal agreeing is
11/10, which exceeds 1. -/
theorem score_weights_counterexample :
    (weights.map (fun kv => kv.2)).sum = 11/10 ∧
    ¬ (weights.map (fun kv => kv.2)).sum = 1 ∧
    accumulate_score ⟨true, true, true, true, true, true, true, true⟩ = 11/10 ∧
    ¬ accumulate_score ⟨true, true, true, true, true, true, true, true⟩ ≤ 1 := by
  refine ⟨by decide, by decide, by decide, by decide⟩

unseal Rat.add Rat.sub Rat.mul Rat.inv in
/-- C1 amended: the weights are fixed constants summing to 11/10, and the
accumulated score lies in [0, 11/10] for every combination of agreeing
sub-signals, the bound 11/10 being attained when all eight agree. -/
theorem score_bounds_amended :
    (weights.map (fun kv => kv.2)).sum = 11/10 ∧
    (∀ f : ScoreFlags, 0 ≤ accumulate_score f ∧ accumulate_score f ≤ 11/10) ∧
    accumulate_score ⟨true, true, true, true, true, true, true, true⟩ = 11/10 := by
  refine ⟨by decide, ?_, by decide⟩
  rintro ⟨a, b, c, d, e, f, g, h⟩
  cases a <;> cases b <;> cases c <;> cases d <;> cases e <;> cases f <;> cases g <;> cases h <;>
    exact ⟨by decide, by decide⟩

/-!
## C5: the direction vote
-/

/-- Counterexample for C5: with momentum = BUY, bollinger = SELL and a
null RSI signal the two votes tie; `[SELL, BUY]` is a valid enumeration
of `set(directions)` (duplicate-free, holding exactly the members) and
under it `max(set(directions), key=directions.count)` returns SELL, not
the direction of the first sub-signal in the evaluation sequence (BUY);
the two admissible enumerations give different results, so the vote is
not a function of the three sub-signal values alone. -/
theorem direction_vote_counterexample :
    [Dir.SELL, Dir.BUY].Nodup ∧
    (∀ x, x ∈ [Dir.SELL, Dir.BUY] ↔
      x ∈ mkDirections (some Dir.BUY) (some Dir.SELL) none) ∧
    pyMaxByCount (mkDirections (some Dir.BUY) (some Dir.SELL) none)
      [Dir.SELL, Dir.BUY] = some Dir.SELL ∧
    Dir.SELL ≠ Dir.BUY ∧
    pyMaxByCount (mkDirections (some Dir.BUY) (some Dir.SELL) none)
      [Dir.BUY, Dir.SELL] = some Dir.BUY := by
  decide

/-- C5 amended: the vote `max(set(directions), key=directions.count)` is
deterministic only up to the iteration order of the Python set: for every
admissible enumeration of that set (duplicate-free, holding exactly the
non-null sub-signal values) a strict majority wins, and on a tie the
result is the first element of that enumeration, which the fixed
evaluation sequence does not determine. -/
theorem direction_vote_amended :
    ∀ (m b r : Option Dir) (order : List Dir),
      order.Nodup → (∀ x, x ∈ order ↔ x ∈ mkDirections m b r) →
      ((mkDirections m b r).count Dir.BUY > (mkDirections m b r).count Dir.SELL →
        pyMaxByCount (mkDirections m b r) order = some Dir.BUY) ∧
      ((mkDirections m b r).count Dir.SELL > (mkDirections m b r).count Dir.BUY →
        pyMaxByCount (mkDirections m b r) order = some Dir.SELL) ∧
      ((mkDirections m b r).count Dir.BUY = (mkDirections m b r).count Dir.SELL →
        pyMaxByCount (mkDirections m b r) order = order.head?) := by
  intro m b r order
  match order with
  | [] => revert m b r; decide
  | [a] => revert m b r a; decide
  | [a, b'] => revert m b r a b'; decide
  | a :: b' :: c :: rest =>
    intro hnd _
    exfalso
    simp [List.nodup_cons] at hnd
    rcases a <;> rcases b' <;> rcases c <;> simp_all

/-- Witness for C5 amended: a strict BUY majority yields BUY under the
enumeration `[BUY, SELL]`. -/
theorem direction_vote_amended_witness :
    pyMaxByCount (mkDirections (some Dir.BUY) (some Dir.BUY) (some Dir.SELL))
      [Dir.BUY, Dir.SELL] = some Dir.BUY :=
  (direction_vote_amended (some Dir.BUY) (some Dir.BUY) (some Dir.SELL)
    [Dir.BUY, Dir.SELL] (by decide) (by decide)).1 (by decide)

/-!
## C2 and C3: zone merging
-/

/-- The code overlap test fails exactly when the intervals are disjoint
in the strict sense used throughout _merge_zones. -/
theorem zonesOverlap_eq_false_iff (z m : Zone) :
    zonesOverlap z m = false ↔ (z.2 < m.1 ∨ m.2 < z.1) := by
  simp only [zonesOverlap, Bool.not_eq_false', Bool.or_eq_true, decide_eq_true_eq, gt_iff_lt]

/-- An interval overlapping nothing in the accumulated list is appended
at the end. -/
theorem insertZone_of_no_overlap (z : Zone) :
    ∀ merged : List Zone, (∀ m ∈ merged, zonesOverlap z m = false) →
      insertZone merged z = merged ++ [z] := by
  intro merged
  induction merged with
  | nil => intro _; rfl
  | cons m rest ih =>
    intro h
    have hm : zonesOverlap z m = false := h m (List.mem_cons_self m rest)
    simp [insertZone, hm, ih (fun x hx => h x (List.mem_cons_of_mem m hx))]

/-- Folding pairwise-disjoint nondegenerate intervals appends them all. -/
theorem mergeFold_of_disjoint :
    ∀ (zs pre : List Zone),
      (∀ z ∈ zs, z.1 < z.2) →
      (∀ m ∈ pre, ∀ z ∈ zs, zonesOverlap z m = false) →
      List.Pairwise (fun a b : Zone => zonesOverlap b a = false) zs →
      zs.foldl (fun merged z => if z.1 = z.2 then merged else insertZone merged z) pre =
        pre ++ zs := by
  intro zs
  induction zs with
  | nil => intro pre _ _ _; simp
  | cons z rest ih =>
    intro pre hnorm hpre hpair
    have hdeg : ¬ z.1 = z.2 := ne_of_lt (hnorm z (List.mem_cons_self z rest))
    rw [List.foldl_cons, if_neg hdeg,
      insertZone_of_no_overlap z pre (fun m hm => hpre m hm z (List.mem_cons_self z rest))]
    rw [ih (pre ++ [z]) (fun a ha => hnorm a (List.mem_cons_of_mem z ha)) ?hpre'
      (List.pairwise_cons.mp hpair).2]
    · simp
    case hpre' =>
      intro m hm z' hz'
      rcases List.mem_append.mp hm with hm | hm
      · exact hpre m hm z' (List.mem_cons_of_mem z hz')
      · have : m = z := by simpa using hm
        subst this
        exact (List.pairwise_cons.mp hpair).1 z' hz'

unseal Rat.add Rat.sub Rat.mul Rat.inv in
/-- Counterexample for C2: `_merge_zones` is not idempotent.  The interval
(1, 5) bridges the two previously separate zones (0, 2) and (4, 6); the
single pass absorbs it into the first, leaving the overlapping output
[(0, 5), (4, 6)], which a second application merges further to [(0, 6)]. -/
theorem merge_zones_not_idempotent_counterexample :
    _merge_zones [((0 : ℚ), 2), (4, 6), (1, 5)] 3 = [(0, 5), (4, 6)] ∧
    _merge_zones (_merge_zones [((0 : ℚ), 2), (4, 6), (1, 5)] 3) 3 = [(0, 6)] ∧
    _merge_zones (_merge_zones [((0 : ℚ), 2), (4, 6), (1, 5)] 3) 3 ≠
      _merge_zones [((0 : ℚ), 2), (4, 6), (1, 5)] 3 := by
  refine ⟨by decide, by decide, by decide⟩

/-- C2 amended: _merge_zones fixes every list of pairwise-disjoint
nondegenerate zones of length at most max_zones, so re-merging an output
yields that output again exactly when the output is pairwise disjoint;
on outputs with overlapping zones (which the single pass can produce) a
second application merges further. -/
theorem merge_zones_idempotent_on_disjoint :
    ∀ (zs : List Zone) (mz : Nat),
      List.Pairwise (fun a b : Zone => a.2 < b.1 ∨ b.2 < a.1) zs →
      (∀ z ∈ zs, z.1 < z.2) →
      zs.length ≤ mz →
      _merge_zones zs mz = zs := by
  intro zs mz hdisj hnorm hlen
  have hpair : List.Pairwise (fun a b : Zone => zonesOverlap b a = false) zs :=
    hdisj.imp (fun h => (zonesOverlap_eq_false_iff _ _).mpr (Or.symm h))
  have hfold := mergeFold_of_disjoint zs [] hnorm (by simp) hpair
  unfold _merge_zones
  rw [hfold]
  simp only [List.nil_append]
  unfold pyTailSlice
  by_cases h0 : mz = 0
  · simp [h0]
  · simp [h0, Nat.sub_eq_zero_of_le hlen]

unseal Rat.add Rat.sub Rat.mul Rat.inv in
/-- Witness for C2 amended at a concrete disjoint pair of zones. -/
theorem merge_zones_idempotent_witness :
    _merge_zones [((0 : ℚ), 1), (2, 3)] 3 = [((0 : ℚ), 1), (2, 3)] :=
  merge_zones_idempotent_on_disjoint [((0 : ℚ), 1), (2, 3)] 3
    (by decide) (by decide) (by decide)

unseal Rat.add Rat.sub Rat.mul Rat.inv in
/-- Counterexample for C3: merged output zones can overlap.  The sorted
spine fails: (1/2, 7/2) bridges (0, 1) and (3, 4); it is absorbed into
(0, 1), producing [(0, 7/2), (3, 4)] whose two zones intersect. -/
theorem merge_zones_overlap_counterexample :
    _merge_zones [((0 : ℚ), 1), (3, 4), (1/2, 7/2)] 3 = [(0, 7/2), (3, 4)] ∧
    ¬ List.Pairwise (fun a b : Zone => a.2 < b.1 ∨ b.2 < a.1)
      (_merge_zones [((0 : ℚ), 1), (3, 4), (1/2, 7/2)] 3) := by
  refine ⟨by decide, by decide⟩

/-- The single insertion step preserves the separated spine when the
incoming interval starts at or after every accumulated zone: the result
is again strictly separated, stays normalized, and every resulting low
endpoint is an old low endpoint or the incoming one. -/
theorem insertZone_sorted_spec (z : Zone) :
    ∀ merged : List Zone,
      List.Pairwise (fun a b : Zone => a.2 < b.1) merged →
      (∀ m ∈ merged, m.1 ≤ m.2) →
      (∀ m ∈ merged, m.1 ≤ z.1) →
      z.1 ≤ z.2 →
      List.Pairwise (fun a b : Zone => a.2 < b.1) (insertZone merged z) ∧
      (∀ m ∈ insertZone merged z, m.1 ≤ m.2) ∧
      (∀ x ∈ insertZone merged z, x.1 = z.1 ∨ ∃ m ∈ merged, x.1 = m.1) := by
  intro merged
  induction merged with
  | nil =>
    intro _ _ _ hz
    refine ⟨by simp [insertZone], ?_, ?_⟩ <;> simp [insertZone, hz]
  | cons m rest ih =>
    intro hsep hno hle hz
    by_cases hov : zonesOverlap z m = true
    · have hzm : ¬ (z.2 < m.1 ∨ m.2 < z.1) := by
        intro hc
        rw [(zonesOverlap_eq_false_iff z m).mpr hc] at hov
        cases hov
      push_neg at hzm
      have hrest : rest = [] := by
        cases rest with
        | nil => rfl
        | cons r rs =>
          exfalso
          have h1 : m.2 < r.1 := (List.pairwise_cons.mp hsep).1 r (List.mem_cons_self r rs)
          have h2 : r.1 ≤ z.1 := hle r (List.mem_cons_of_mem m (List.mem_cons_self r rs))
          have h3 : z.1 ≤ m.2 := hzm.2
          linarith
      subst hrest
      simp only [insertZone, hov, if_true]
      refine ⟨by simp, ?_, ?_⟩
      · intro x hx
        have hxe : x = (min z.1 m.1, max z.2 m.2) := by simpa using hx
        subst hxe
        have : min z.1 m.1 ≤ z.1 := min_le_left _ _
        have : z.2 ≤ max z.2 m.2 := le_max_left _ _
        simp only
        calc min z.1 m.1 ≤ z.1 := min_le_left _ _
          _ ≤ z.2 := hz
          _ ≤ max z.2 m.2 := le_max_left _ _
      · intro x hx
        have hxe : x = (min z.1 m.1, max z.2 m.2) := by simpa using hx
        subst hxe
        rcases min_choice z.1 m.1 with h | h
        · left; exact h
        · right; exact ⟨m, List.mem_cons_self m [], h⟩
    · have hov' : zonesOverlap z m = false := by
        cases hcase : zonesOverlap z m
        · rfl
        · exact absurd hcase hov
      have hmz : m.2 < z.1 := by
        rcases (zonesOverlap_eq_false_iff z m).mp hov' with h | h
        · exfalso
          have : m.1 ≤ z.1 := hle m (List.mem_cons_self m rest)
          linarith
        · exact h
      obtain ⟨ih1, ih2, ih3⟩ := ih (List.pairwise_cons.mp hsep).2
        (fun x hx => hno x (List.mem_cons_of_mem m hx))
        (fun x hx => hle x (List.mem_cons_of_mem m hx)) hz
      simp only [insertZone, hov', Bool.false_eq_true, if_false]
      refine ⟨?_, ?_, ?_⟩
      · rw [List.pairwise_cons]
        refine ⟨?_, ih1⟩
        intro x hx
        rcases ih3 x hx with h | ⟨m', hm', h⟩
        · rw [h]; exact hmz
        · rw [h]; exact (List.pairwise_cons.mp hsep).1 m' hm'
      · intro x hx
        rcases List.mem_cons.mp hx with rfl | hx
        · exact hno x (List.mem_cons_self x rest)
        · exact ih2 x hx
      · intro x hx
        rcases List.mem_cons.mp hx with rfl | hx
        · right; exact ⟨x, List.mem_cons_self x rest, rfl⟩
        · rcases ih3 x hx with h | ⟨m', hm', h⟩
          · left; exact h
          · right; exact ⟨m', List.mem_cons_of_mem m hm', h⟩

/-- Folding intervals sorted by low endpoint keeps the accumulated zones
strictly separated and normalized. -/
theorem mergeFold_sorted :
    ∀ (zs merged : List Zone),
      (∀ z ∈ zs, z.1 ≤ z.2) →
      List.Pairwise (fun a b : Zone => a.1 ≤ b.1) zs →
      List.Pairwise (fun a b : Zone => a.2 < b.1) merged →
      (∀ m ∈ merged, m.1 ≤ m.2) →
      (∀ m ∈ merged, ∀ z ∈ zs, m.1 ≤ z.1) →
      List.Pairwise (fun a b : Zone => a.2 < b.1)
        (zs.foldl (fun acc z => if z.1 = z.2 then acc else insertZone acc z) merged) := by
  intro zs
  induction zs with
  | nil => intro merged _ _ h1 _ _; exact h1
  | cons z rest ih =>
    intro merged hnorm hsort hsep hno hle
    rw [List.foldl_cons]
    by_cases hdeg : z.1 = z.2
    · rw [if_pos hdeg]
      exact ih merged (fun a ha => hnorm a (List.mem_cons_of_mem z ha))
        (List.pairwise_cons.mp hsort).2 hsep hno
        (fun m hm z' hz' => hle m hm z' (List.mem_cons_of_mem z hz'))
    · rw [if_neg hdeg]
      obtain ⟨p1, p2, p3⟩ := insertZone_sorted_spec z merged hsep hno
        (fun m hm => hle m hm z (List.mem_cons_self z rest))
        (hnorm z (List.mem_cons_self z rest))
      refine ih (insertZone merged z) (fun a ha => hnorm a (List.mem_cons_of_mem z ha))
        (List.pairwise_cons.mp hsort).2 p1 p2 ?_
      intro m hm z' hz'
      rcases p3 m hm with h | ⟨m', hm', h⟩
      · rw [h]; exact (List.pairwise_cons.mp hsort).1 z' hz'
      · rw [h]; exact hle m' hm' z' (List.mem_cons_of_mem z hz')

/-- C3 amended: the zones returned by _merge_zones are pairwise disjoint
whenever the candidate intervals are normalized and sorted by their low
endpoint; for unsorted candidates a later interval bridging two earlier
zones can leave overlapping zones in the output (see the
counterexample). -/
theorem merge_zones_sorted_disjoint :
    ∀ (zs : List Zone) (mz : Nat),
      List.Pairwise (fun a b : Zone => a.1 ≤ b.1) zs →
      (∀ z ∈ zs, z.1 ≤ z.2) →
      List.Pairwise (fun a b : Zone => a.2 < b.1 ∨ b.2 < a.1) (_merge_zones zs mz) := by
  intro zs mz hsort hnorm
  have p1 := mergeFold_sorted zs [] hnorm hsort (by simp) (by simp) (by simp)
  have p1' : List.Pairwise (fun a b : Zone => a.2 < b.1 ∨ b.2 < a.1)
      (zs.foldl (fun acc z => if z.1 = z.2 then acc else insertZone acc z) []) :=
    p1.imp (fun h => Or.inl h)
  unfold _merge_zones pyTailSlice
  by_cases h0 : mz = 0
  · simpa [h0] using p1'
  · simpa [h0] using p1'.sublist (List.drop_sublist _ _)

unseal Rat.add Rat.sub Rat.mul Rat.inv in
/-- Witness for C3 amended at a concrete sorted candidate list in which
the third interval merges into the second. -/
theorem merge_zones_sorted_disjoint_witness :
    List.Pairwise (fun a b : Zone => a.2 < b.1 ∨ b.2 < a.1)
      (_merge_zones [((0 : ℚ), 1), (2, 5), (3, 4)] 3) :=
  merge_zones_sorted_disjoint [((0 : ℚ), 1), (2, 5), (3, 4)] 3 (by decide) (by decide)

/-!
## C4: where the levels of find_nearest_levels come from
-/

/-- The first component of the level-collecting fold step is extended by
the low value exactly when the swing-low test fires. -/
theorem levelsStep_fst (cH cL : Nat → Bool) (gH gL : Nat → ℚ)
    (acc : List ℚ × List ℚ) (j : Nat) :
    (let acc1 := if cH j then (acc.1, acc.2 ++ [gH j]) else acc
     if cL j then (acc1.1 ++ [gL j], acc1.2) else acc1).1 =
      (if cL j then acc.1 ++ [gL j] else acc.1) := by
  by_cases h1 : cH j <;> by_cases h2 : cL j <;> simp [h1, h2]

/-- The second component of the level-collecting fold step is extended by
the high value exactly when the swing-high test fires. -/
theorem levelsStep_snd (cH cL : Nat → Bool) (gH gL : Nat → ℚ)
    (acc : List ℚ × List ℚ) (j : Nat) :
    (let acc1 := if cH j then (acc.1, acc.2 ++ [gH j]) else acc
     if cL j then (acc1.1 ++ [gL j], acc1.2) else acc1).2 =
      (if cH j then acc.2 ++ [gH j] else acc.2) := by
  by_cases h1 : cH j <;> by_cases h2 : cL j <;> simp [h1, h2]

/-- Every rational collected by the level fold is the image of an index
of the scanned range whose swing test fired. -/
theorem levelsFold_mem (cH cL : Nat → Bool) (gH gL : Nat → ℚ) :
    ∀ (idxs : List Nat) (acc : List ℚ × List ℚ) (x : ℚ),
      (x ∈ (idxs.foldl (fun acc i =>
          let acc1 := if cH i then (acc.1, acc.2 ++ [gH i]) else acc
          if cL i then (acc1.1 ++ [gL i], acc1.2) else acc1) acc).1 →
        x ∈ acc.1 ∨ ∃ i ∈ idxs, cL i = true ∧ x = gL i) ∧
      (x ∈ (idxs.foldl (fun acc i =>
          let acc1 := if cH i then (acc.1, acc.2 ++ [gH i]) else acc
          if cL i then (acc1.1 ++ [gL i], acc1.2) else acc1) acc).2 →
        x ∈ acc.2 ∨ ∃ i ∈ idxs, cH i = true ∧ x = gH i) := by
  intro idxs
  induction idxs with
  | nil => intro acc x; constructor <;> (intro hx; left; simpa using hx)
  | cons j js ih =>
    intro acc x
    rw [List.foldl_cons]
    constructor
    · intro hx
      rcases (ih _ x).1 hx with hmem | ⟨i, hi, hc, he⟩
      · rw [levelsStep_fst cH cL gH gL acc j] at hmem
        by_cases hcl : cL j
        · rw [if_pos hcl] at hmem
          rcases List.mem_append.mp hmem with hmem | hmem
          · exact Or.inl hmem
          · exact Or.inr ⟨j, List.mem_cons_self j js, hcl, by simpa using hmem⟩
        · rw [if_neg hcl] at hmem
          exact Or.inl hmem
      · exact Or.inr ⟨i, List.mem_cons_of_mem j hi, hc, he⟩
    · intro hx
      rcases (ih _ x).2 hx with hmem | ⟨i, hi, hc, he⟩
      · rw [levelsStep_snd cH cL gH gL acc j] at hmem
        by_cases hch : cH j
        · rw [if_pos hch] at hmem
          rcases List.mem_append.mp hmem with hmem | hmem
          · exact Or.inl hmem
          · exact Or.inr ⟨j, List.mem_cons_self j js, hch, by simpa using hmem⟩
        · rw [if_neg hch] at hmem
          exact Or.inl hmem
      · exact Or.inr ⟨i, List.mem_cons_of_mem j hi, hc, he⟩

unseal Rat.add Rat.sub Rat.mul Rat.inv in
/-- Counterexample for C4: with window 1, lookback 3 and ten bars, the
returned support 5 is the low of bar index 1 — a bar in the oldest part
of the series — and is not the low of any of the three most recent bars,
refuting the reading that levels come from the most recent `lookback`
bars. -/
theorem find_nearest_levels_recency_counterexample :
    find_nearest_levels swingExampleBars 1 3 3 = some ([5], []) ∧
    (5 : ℚ) ∈ ((find_nearest_levels swingExampleBars 1 3 3).getD ([], [])).1 ∧
    (∀ b ∈ swingExampleBars.drop (swingExampleBars.length - 3), ¬ b.low = 5) := by
  refine ⟨by decide, by decide, by decide⟩

/-- C4 amended: every returned support (resistance) is the low (high) of
a swing bar whose index lies in `[window, min(len - window, lookback))`,
i.e. within the oldest `lookback` bars of the series rather than the most
recent ones, and on the correct side of the final close. -/
theorem find_nearest_levels_swing_origin :
    ∀ (df : List Bar) (window lookback maxLevels : Nat) (sup res : List ℚ),
      find_nearest_levels df window lookback maxLevels = some (sup, res) →
      (∀ s ∈ sup, s < (closes df).getD (df.length - 1) 0 ∧
        ∃ i, window ≤ i ∧ i < min (df.length - window) lookback ∧
          swingLowAt (lows df) window i = true ∧ s = (lows df).getD i 0) ∧
      (∀ r ∈ res, (closes df).getD (df.length - 1) 0 < r ∧
        ∃ i, window ≤ i ∧ i < min (df.length - window) lookback ∧
          swingHighAt (highs df) window i = true ∧ r = (highs df).getD i 0) := by
  intro df window lookback maxLevels sup res h
  unfold find_nearest_levels at h
  by_cases hemp : df.isEmpty
  · rw [if_pos hemp] at h; cases h
  · rw [if_neg hemp] at h
    injection h with h
    have h1 := congrArg Prod.fst h
    have h2 := congrArg Prod.snd h
    simp only at h1 h2
    constructor
    · intro s hs
      rw [← h1] at hs
      have hs1 := List.mem_of_mem_take hs
      simp only [sortedDesc] at hs1
      rw [List.mem_insertionSort] at hs1
      obtain ⟨hmem, hcls⟩ := List.mem_filter.mp hs1
      refine ⟨of_decide_eq_true hcls, ?_⟩
      have hfold := (levelsFold_mem
        (fun i => swingHighAt (highs df) window i)
        (fun i => swingLowAt (lows df) window i)
        (fun i => (highs df).getD i 0)
        (fun i => (lows df).getD i 0)
        (List.range' window (min (df.length - window) lookback - window))
        ([], []) s).1 hmem
      rcases hfold with hnil | ⟨i, hi, hc, he⟩
      · cases hnil
      · obtain ⟨hlo, hhi⟩ := List.mem_range'_1.mp hi
        exact ⟨i, hlo, by omega, hc, he⟩
    · intro r hr
      rw [← h2] at hr
      have hr1 := List.mem_of_mem_take hr
      simp only [sortedAsc] at hr1
      rw [List.mem_insertionSort] at hr1
      obtain ⟨hmem, hcls⟩ := List.mem_filter.mp hr1
      refine ⟨of_decide_eq_true hcls, ?_⟩
      have hfold := (levelsFold_mem
        (fun i => swingHighAt (highs df) window i)
        (fun i => swingLowAt (lows df) window i)
        (fun i => (highs df).getD i 0)
        (fun i => (lows df).getD i 0)
        (List.range' window (min (df.length - window) lookback - window))
        ([], []) r).2 hmem
      rcases hfold with hnil | ⟨i, hi, hc, he⟩
      · cases hnil
      · obtain ⟨hlo, hhi⟩ := List.mem_range'_1.mp hi
        exact ⟨i, hlo, by omega, hc, he⟩

unseal Rat.add Rat.sub Rat.mul Rat.inv in
/-- Witness for C4 amended: the support 5 of the example frame is the low
of the swing bar at index 1. -/
theorem find_nearest_levels_swing_origin_witness :
    (5 : ℚ) < (closes swingExampleBars).getD (swingExampleBars.length - 1) 0 ∧
    ∃ i, 1 ≤ i ∧ i < min (swingExampleBars.length - 1) 3 ∧
      swingLowAt (lows swingExampleBars) 1 i = true ∧
      (5 : ℚ) = (lows swingExampleBars).getD i 0 :=
  (find_nearest_levels_swing_origin swingExampleBars 1 3 3 [5] []
    (by decide)).1 5 (by decide)

/-!
## C9: merged zones are normalized intervals
-/

/-- insertZone preserves interval normalization. -/
theorem insertZone_norm (z : Zone) :
    ∀ merged : List Zone, (∀ m ∈ merged, m.1 ≤ m.2) → z.1 ≤ z.2 →
      ∀ m ∈ insertZone merged z, m.1 ≤ m.2 := by
  intro merged
  induction merged with
  | nil =>
    intro _ hz m hm
    have : m = z := by simpa [insertZone] using hm
    subst this; exact hz
  | cons m rest ih =>
    intro hno hz x hx
    by_cases hov : zonesOverlap z m = true
    · simp only [insertZone, hov, if_true] at hx
      rcases List.mem_cons.mp hx with rfl | hx
      · calc (min z.1 m.1) ≤ z.1 := min_le_left _ _
          _ ≤ z.2 := hz
          _ ≤ max z.2 m.2 := le_max_left _ _
      · exact hno x (List.mem_cons_of_mem m hx)
    · have hov' : zonesOverlap z m = false := by
        cases hcase : zonesOverlap z m
        · rfl
        · exact absurd hcase hov
      simp only [insertZone, hov', Bool.false_eq_true, if_false] at hx
      rcases List.mem_cons.mp hx with rfl | hx
      · exact hno x (List.mem_cons_self x rest)
      · exact ih (fun a ha => hno a (List.mem_cons_of_mem m ha)) hz x hx

/-- _merge_zones preserves interval normalization. -/
theorem merge_zones_norm (zs : List Zone) (mz : Nat)
    (hnorm : ∀ z ∈ zs, z.1 ≤ z.2) :
    ∀ m ∈ _merge_zones zs mz, m.1 ≤ m.2 := by
  have hfold : ∀ (l : List Zone) (acc : List Zone),
      (∀ z ∈ l, z.1 ≤ z.2) → (∀ m ∈ acc, m.1 ≤ m.2) →
      ∀ m ∈ l.foldl (fun merged z => if z.1 = z.2 then merged else insertZone merged z) acc,
        m.1 ≤ m.2 := by
    intro l
    induction l with
    | nil => intro acc _ hacc m hm; exact hacc m hm
    | cons z rest ih =>
      intro acc hl hacc m hm
      rw [List.foldl_cons] at hm
      by_cases hdeg : z.1 = z.2
      · rw [if_pos hdeg] at hm
        exact ih acc (fun a ha => hl a (List.mem_cons_of_mem z ha)) hacc m hm
      · rw [if_neg hdeg] at hm
        exact ih (insertZone acc z) (fun a ha => hl a (List.mem_cons_of_mem z ha))
          (insertZone_norm z acc hacc (hl z (List.mem_cons_self z rest))) m hm
  intro m hm
  unfold _merge_zones pyTailSlice at hm
  by_cases h0 : mz = 0
  · rw [if_pos h0] at hm
    exact hfold zs [] hnorm (by simp) m hm
  · rw [if_neg h0] at hm
    exact hfold zs [] hnorm (by simp) m (List.mem_of_mem_drop hm)

/-- The candidate intervals collected by the window scan of find_zones
are normalized whenever every bar satisfies `low ≤ high`. -/
theorem findZonesFold_norm (df : List Bar) (window : Nat) (rf bm : ℚ) (atr : Option ℚ)
    (hvalid : ∀ b ∈ df, b.low ≤ b.high) (hw : 0 < window) :
    ∀ (starts : List Nat) (acc : List Zone × List Zone),
      (∀ start ∈ starts, start < df.length) →
      (∀ z ∈ acc.1, z.1 ≤ z.2) → (∀ z ∈ acc.2, z.1 ≤ z.2) →
      (∀ z ∈ (starts.foldl (fun (acc : List Zone × List Zone) start =>
          let w := (df.drop start).take window
          let spread := listMax (highs w) - listMin (lows w)
          let fc := (closes w).getD 0 0
          let lc := (closes w).getD (w.length - 1) 0
          let move := |lc - fc|
          if okSpread spread rf atr && okBreak move bm atr then
            let low := listMin (lows w)
            let high := listMax (highs w)
            if low = high then acc
            else if lc > fc then (acc.1 ++ [(low, high)], acc.2)
            else (acc.1, acc.2 ++ [(low, high)])
          else acc) acc).1, z.1 ≤ z.2) ∧
      (∀ z ∈ (starts.foldl (fun (acc : List Zone × List Zone) start =>
          let w := (df.drop start).take window
          let spread := listMax (highs w) - listMin (lows w)
          let fc := (closes w).getD 0 0
          let lc := (closes w).getD (w.length - 1) 0
          let move := |lc - fc|
          if okSpread spread rf atr && okBreak move bm atr then
            let low := listMin (lows w)
            let high := listMax (highs w)
            if low = high then acc
            else if lc > fc then (acc.1 ++ [(low, high)], acc.2)
            else (acc.1, acc.2 ++ [(low, high)])
          else acc) acc).2, z.1 ≤ z.2) := by
  intro starts
  induction starts with
  | nil => intro acc _ h1 h2; exact ⟨h1, h2⟩
  | cons start rest ih =>
    intro acc hin h1 h2
    rw [List.foldl_cons]
    have hlt : start < df.length := hin start (List.mem_cons_self start rest)
    have hin' : ∀ s ∈ rest, s < df.length := fun s hs => hin s (List.mem_cons_of_mem start hs)
    have hzone : listMin (lows ((df.drop start).take window)) ≤
        listMax (highs ((df.drop start).take window)) := by
      set w := (df.drop start).take window with hw_def
      have hlen : 0 < w.length := by
        rw [hw_def, List.length_take, List.length_drop]
        omega
      obtain ⟨b, hb⟩ := List.exists_mem_of_length_pos hlen
      have hbdf : b ∈ df :=
        ((List.take_sublist _ _).trans (List.drop_sublist _ _)).subset hb
      have hmin : listMin (lows w) ≤ b.low :=
        listMin_le _ _ (List.mem_map_of_mem _ hb)
      have hmaxw : b.high ≤ listMax (highs w) :=
        le_listMax _ _ (List.mem_map_of_mem _ hb)
      have := hvalid b hbdf
      linarith
    apply ih
    · exact hin'
    all_goals {
      intro z hz
      simp only at hz
      by_cases hok : okSpread (listMax (highs ((df.drop start).take window)) -
          listMin (lows ((df.drop start).take window))) rf atr &&
          okBreak (|(closes ((df.drop start).take window)).getD
            (((df.drop start).take window).length - 1) 0 -
            (closes ((df.drop start).take window)).getD 0 0|) bm atr
      all_goals first
      | (rw [if_pos hok] at hz
         by_cases hdeg : listMin (lows ((df.drop start).take window)) =
             listMax (highs ((df.drop start).take window))
         · rw [if_pos hdeg] at hz
           first | exact h1 z hz | exact h2 z hz
         · rw [if_neg hdeg] at hz
           by_cases hdir : (closes ((df.drop start).take window)).getD
               (((df.drop start).take window).length - 1) 0 >
               (closes ((df.drop start).take window)).getD 0 0
           · rw [if_pos hdir] at hz
             simp only [] at hz
             first
             | (rcases List.mem_append.mp hz with hz | hz
                · exact h1 z hz
                · have : z = (listMin (lows ((df.drop start).take window)),
                      listMax (highs ((df.drop start).take window))) := by simpa using hz
                  subst this
                  exact hzone)
             | exact h2 z hz
           · rw [if_neg hdir] at hz
             simp only [] at hz
             first
             | (rcases List.mem_append.mp hz with hz | hz
                · exact h2 z hz
                · have : z = (listMin (lows ((df.drop start).take window)),
                      listMax (highs ((df.drop start).take window))) := by simpa using hz
                  subst this
                  exact hzone)
             | exact h1 z hz)
      | (rw [if_neg hok] at hz
         first | exact h1 z hz | exact h2 z hz)
    }

/-- C9.  For every bar series whose bars satisfy `low ≤ high` and every
parameterisation, each zone of either side returned by find_zones
satisfies `low ≤ high`. -/
theorem find_zones_normalized :
    ∀ (df : List Bar) (window : Nat) (rf bm : ℚ) (mz : Nat) (d s : List Zone),
      (∀ b ∈ df, b.low ≤ b.high) →
      find_zones df window rf bm mz = some (d, s) →
      (∀ z ∈ d, z.1 ≤ z.2) ∧ (∀ z ∈ s, z.1 ≤ z.2) := by
  intro df window rf bm mz d s hvalid h
  unfold find_zones at h
  split at h
  · cases h
  · rename_i hcond
    have hw : 0 < window := by
      by_contra hw0
      exact hcond (by simp [Nat.eq_zero_of_not_pos hw0])
    injection h with h
    have h1 := congrArg Prod.fst h
    have h2 := congrArg Prod.snd h
    simp only at h1 h2
    have hfold := findZonesFold_norm df window rf bm (atr14Last df) hvalid hw
      (List.range (df.length - window)) ([], [])
      (fun st hst => by
        have := List.mem_range.mp hst
        omega)
      (by simp) (by simp)
    constructor
    · intro z hz
      rw [← h1] at hz
      exact merge_zones_norm _ mz hfold.1 z hz
    · intro z hz
      rw [← h2] at hz
      exact merge_zones_norm _ mz hfold.2 z hz

unseal Rat.add Rat.sub Rat.mul Rat.inv in
/-- Witness for C9 at a concrete three-bar frame producing one demand
zone. -/
theorem find_zones_normalized_witness :
    find_zones smallZoneBars 2 1 (1/10) 3 = some ([((1 : ℚ), 5)], []) ∧
    ((∀ z ∈ [((1 : ℚ), 5)], z.1 ≤ z.2) ∧ (∀ z ∈ ([] : List Zone), z.1 ≤ z.2)) :=
  ⟨by decide,
   find_zones_normalized smallZoneBars 2 1 (1/10) 3 [((1 : ℚ), 5)] []
     (by decide) (by decide)⟩

/-!
## C6: the reversal consensus quorum
-/

/-- On a constant series the swing-high test always fails: the left
neighbourhood is a nonempty run of the same value, never strictly
exceeded. -/
theorem swingHighAt_replicate_false (q : ℚ) (n w i : Nat) (hw : 0 < w) (hwi : w ≤ i)
    (hin : i < n) : swingHighAt (List.replicate n q) w i = false := by
  have hslice : pySlice (List.replicate n q) (i - w) i = List.replicate w q := by
    unfold pySlice
    rw [List.drop_replicate, List.take_replicate]
    congr 1
    omega
  simp only [swingHighAt]
  rw [hslice, all_replicate_pos w q _ hw, getD_replicate_of_lt n i q 0 hin]
  simp

/-- On a constant series the swing-low test always fails. -/
theorem swingLowAt_replicate_false (q : ℚ) (n w i : Nat) (hw : 0 < w) (hwi : w ≤ i)
    (hin : i < n) : swingLowAt (List.replicate n q) w i = false := by
  have hslice : pySlice (List.replicate n q) (i - w) i = List.replicate w q := by
    unfold pySlice
    rw [List.drop_replicate, List.take_replicate]
    congr 1
    omega
  simp only [swingLowAt]
  rw [hslice, all_replicate_pos w q _ hw, getD_replicate_of_lt n i q 0 hin]
  simp

/-- find_nearest_levels on a constant series returns no levels at all. -/
theorem find_nearest_levels_replicate (n w lb ml : Nat) (b : Bar) (hn : 0 < n)
    (hw : 0 < w) : find_nearest_levels (List.replicate n b) w lb ml = some ([], []) := by
  simp only [find_nearest_levels, List.length_replicate]
  rw [if_neg (by simp [List.isEmpty_iff, List.replicate_eq_nil_iff]; omega)]
  have hbody : ∀ (acc : List ℚ × List ℚ) (i : Nat), i ∈ List.range' w (min (n - w) lb - w) →
      (fun (acc : List ℚ × List ℚ) i =>
        let acc1 := if swingHighAt (highs (List.replicate n b)) w i then
          (acc.1, acc.2 ++ [(highs (List.replicate n b)).getD i 0]) else acc
        if swingLowAt (lows (List.replicate n b)) w i then
          (acc1.1 ++ [(lows (List.replicate n b)).getD i 0], acc1.2) else acc1) acc i = acc := by
    intro acc i hi
    obtain ⟨h1, h2⟩ := List.mem_range'_1.mp hi
    have hin : i < n := by omega
    have hH : swingHighAt (highs (List.replicate n b)) w i = false := by
      rw [show highs (List.replicate n b) = List.replicate n b.high by
        simp [highs, List.map_replicate]]
      exact swingHighAt_replicate_false b.high n w i hw h1 hin
    have hL : swingLowAt (lows (List.replicate n b)) w i = false := by
      rw [show lows (List.replicate n b) = List.replicate n b.low by
        simp [lows, List.map_replicate]]
      exact swingLowAt_replicate_false b.low n w i hw h1 hin
    simp [hH, hL]
  rw [foldl_nop _ _ _ hbody]
  simp [sortedDesc, sortedAsc]

unseal Rat.add Rat.sub Rat.mul Rat.inv in
/-- The hammer predicate holds on any nonempty constant run of the
example bullish bar. -/
theorem is_hammer_replicate (n : Nat) (hn : 0 < n) :
    is_hammer (List.replicate n bullHammerBar) = true := by
  have hlast : ilocNeg (List.replicate n bullHammerBar) 1 = bullHammerBar := by
    unfold ilocNeg
    rw [List.length_replicate]
    exact getD_replicate_of_lt n (n - 1) _ _ (by omega)
  simp only [is_hammer, hlast, List.length_replicate]
  rw [if_neg (by omega)]
  decide

unseal Rat.add Rat.sub Rat.mul Rat.inv in
/-- On a constant run of the example bullish bar every timeframe body of
the reversal consensus confirms: the chop filter sees a strongly biased
sign sum, no support/resistance level exists to cause an ambiguity skip,
and the hammer pattern fires. -/
theorem tfBody_replicate (n : Nat) (sym : String) (d : Dir) (hn : 10 ≤ n) :
    tfBody (List.replicate n bullHammerBar) n sym d = true := by
  have hpos : 0 < n := by omega
  have hrec : lastN n (List.replicate n bullHammerBar) = List.replicate n bullHammerBar := by
    unfold lastN
    simp
  have hsigns : (List.replicate n bullHammerBar).map (fun b => signQ (b.close - b.open_)) =
      List.replicate n (1 : ℚ) := by
    rw [List.map_replicate]
    congr 1
  have hsum : ((List.replicate n (1 : ℚ)).sum) = (n : ℚ) := by
    simp [List.sum_replicate, nsmul_eq_mul]
  have hchop : decide (((List.replicate n (1 : ℚ)).sum) ≤ 2) = false := by
    rw [hsum]
    apply decide_eq_false
    have h10 : (10 : ℚ) ≤ (n : ℚ) := by exact_mod_cast hn
    linarith
  have hany : reversalPatterns.any (fun p => p (List.replicate n bullHammerBar)) = true :=
    List.any_eq_true.mpr ⟨is_hammer, by simp [reversalPatterns],
      is_hammer_replicate n hpos⟩
  have hlev : find_nearest_levels (List.replicate n bullHammerBar) 20 500 3 = some ([], []) :=
    find_nearest_levels_replicate n 20 500 3 bullHammerBar hpos (by omega)
  have h5 : ¬ (n < 5) := by omega
  simp only [tfBody, List.length_replicate, lt_irrefl, if_false, hrec, hsigns, hchop,
    Bool.false_and, hany, hlev, Option.getD_some, if_neg h5]
  simp [is_near_support_or_resistance, List.isEmpty_iff, List.replicate_eq_nil_iff, h5,
    Nat.pos_iff_ne_zero.mp hpos]

/-- One timeframe of the consensus confirms under a fetch that returns a
constant bullish run of the requested length, whenever the configured
count is at least 10 (every configured count is at least 300). -/
theorem tfConfirmed_goodFetch (label sym : String) (d : Dir)
    (h10 : 10 ≤ TF_CANDLE_COUNTS label) :
    tfConfirmed label (fun _ count => some (List.replicate count bullHammerBar)) sym d
      = true := by
  unfold tfConfirmed
  exact tfBody_replicate _ sym d h10

/-- C6.  detect_reversal_signal returns true exactly when at least 4 of
the 8 configured timeframes confirm; in particular a bar source on which
exactly the four timeframes M30, H1, H2 and D1 confirm (the other four
rejecting for lack of data) yields true, while the analogous
three-confirm source yields false. -/
theorem reversal_quorum :
    (∀ (fetchFn : String → Nat → Option (List Bar)) (sym : String) (d : Dir),
      detect_reversal_signal fetchFn sym d = true ↔
        4 ≤ (REQUIRED_TIMEFRAMES.filter
          (fun label => tfConfirmed label fetchFn sym d)).length) ∧
    detect_reversal_signal fourConfirmFetch "EURUSD" Dir.BUY = true ∧
    detect_reversal_signal threeConfirmFetch "EURUSD" Dir.BUY = false := by
  have hgood4 : ∀ label : String, (label = "M30" ∨ label = "H1" ∨ label = "H2" ∨
      label = "D1") → 10 ≤ TF_CANDLE_COUNTS label →
      tfConfirmed label fourConfirmFetch "EURUSD" Dir.BUY = true := by
    intro label hmem h10
    have hf : fourConfirmFetch label (TF_CANDLE_COUNTS label) =
        some (List.replicate (TF_CANDLE_COUNTS label) bullHammerBar) := by
      unfold fourConfirmFetch
      rw [if_pos hmem]
    unfold tfConfirmed
    rw [hf]
    exact tfBody_replicate _ _ _ h10
  have hbad4 : ∀ label : String, ¬ (label = "M30" ∨ label = "H1" ∨ label = "H2" ∨
      label = "D1") → tfConfirmed label fourConfirmFetch "EURUSD" Dir.BUY = false := by
    intro label hmem
    have hf : fourConfirmFetch label (TF_CANDLE_COUNTS label) = none := by
      unfold fourConfirmFetch
      rw [if_neg hmem]
    unfold tfConfirmed
    rw [hf]
  have hgood3 : ∀ label : String, (label = "M30" ∨ label = "H1" ∨ label = "H2") →
      10 ≤ TF_CANDLE_COUNTS label →
      tfConfirmed label threeConfirmFetch "EURUSD" Dir.BUY = true := by
    intro label hmem h10
    have hf : threeConfirmFetch label (TF_CANDLE_COUNTS label) =
        some (List.replicate (TF_CANDLE_COUNTS label) bullHammerBar) := by
      unfold threeConfirmFetch
      rw [if_pos hmem]
    unfold tfConfirmed
    rw [hf]
    exact tfBody_replicate _ _ _ h10
  have hbad3 : ∀ label : String, ¬ (label = "M30" ∨ label = "H1" ∨ label = "H2") →
      tfConfirmed label threeConfirmFetch "EURUSD" Dir.BUY = false := by
    intro label hmem
    have hf : threeConfirmFetch label (TF_CANDLE_COUNTS label) = none := by
      unfold threeConfirmFetch
      rw [if_neg hmem]
    unfold tfConfirmed
    rw [hf]
  refine ⟨?_, ?_, ?_⟩
  · intro f s d
    unfold detect_reversal_signal
    exact decide_eq_true_iff
  · unfold detect_reversal_signal REQUIRED_TIMEFRAMES
    rw [List.filter_cons, List.filter_cons, List.filter_cons, List.filter_cons,
      List.filter_cons, List.filter_cons, List.filter_cons, List.filter_cons]
    rw [hbad4 "M1" (by decide), hbad4 "M5" (by decide), hbad4 "M15" (by decide),
      hgood4 "M30" (by decide) (by decide), hgood4 "H1" (by decide) (by decide),
      hgood4 "H2" (by decide) (by decide), hbad4 "H4" (by decide),
      hgood4 "D1" (by decide) (by decide)]
    rfl
  · unfold detect_reversal_signal REQUIRED_TIMEFRAMES
    rw [List.filter_cons, List.filter_cons, List.filter_cons, List.filter_cons,
      List.filter_cons, List.filter_cons, List.filter_cons, List.filter_cons]
    rw [hbad3 "M1" (by decide), hbad3 "M5" (by decide), hbad3 "M15" (by decide),
      hgood3 "M30" (by decide) (by decide), hgood3 "H1" (by decide) (by decide),
      hgood3 "H2" (by decide) (by decide), hbad3 "H4" (by decide),
      hbad3 "D1" (by decide)]
    rfl

/-!
## C10: a failed zone confirmation empties the fallback result
-/

/-- When neither the M15 chart-pattern check nor the reversal consensus
confirms, the zone loop never succeeds, whatever zones are in
tolerance. -/
theorem scanZones_false (tol : Option ℚ) (price : ℚ) (m15 : Option (List Bar)) (d : Dir)
    (fetchFn : String → Nat → Option (List Bar)) (sym : String)
    (hp : m15PatternConfirm m15 d = false)
    (hr : detect_reversal_signal fetchFn sym d = false) :
    ∀ zones : List Zone, scanZones zones tol price m15 d fetchFn sym = false := by
  intro zones
  induction zones with
  | nil => rfl
  | cons z rest ih =>
    unfold scanZones
    by_cases hz : inZoneTol z tol price
    · simp [hz, hp, hr, ih]
    · simp [hz, ih]

/-- Under the same failed confirmations the timeframe loop of the
fallback scan returns nothing, for every finder table. -/
theorem fallbackLoop_none (dfDict : String → Option (List Bar)) (tol : Option ℚ)
    (d : Dir) (price : ℚ) (m15 : Option (List Bar))
    (fetchFn : String → Nat → Option (List Bar)) (sym : String)
    (hp : m15PatternConfirm m15 d = false)
    (hr : detect_reversal_signal fetchFn sym d = false) :
    ∀ fs : List (String × (List Bar → Option (List Zone × List Zone))),
      fallbackLoop fs dfDict tol d price m15 fetchFn sym = none := by
  intro fs
  induction fs with
  | nil => rfl
  | cons p rest ih =>
    obtain ⟨tf, fn⟩ := p
    unfold fallbackLoop
    cases hdf : dfDict tf with
    | none => exact ih
    | some df =>
      by_cases hemp : df.isEmpty
      · simp [hemp, ih]
      · simp [hemp, ih, scanZones_false tol price m15 d fetchFn sym hp hr]

/-- C10.  When no confirmation exists anywhere — the M15 chart-pattern
check fails and the reversal consensus rejects — find_zones_fallback
returns empty demand and supply lists and no timeframe, regardless of
what zones exist on any timeframe, and the orchestrator zone gate
therefore rejects. -/
theorem fallback_empty_without_confirmation :
    ∀ (dfDict : String → Option (List Bar)) (d : Dir) (price : ℚ) (sym : String)
      (hasAtr : Bool) (fetchFn : String → Nat → Option (List Bar)),
      m15PatternConfirm (dfDict "M15") d = false →
      detect_reversal_signal fetchFn sym d = false →
      find_zones_fallback dfDict d price sym hasAtr fetchFn = ([], [], none) ∧
      zone_gate_passes d (find_zones_fallback dfDict d price sym hasAtr fetchFn) = false := by
  intro dfDict d price sym hasAtr fetchFn hp hr
  have hmain : find_zones_fallback dfDict d price sym hasAtr fetchFn = ([], [], none) := by
    simp only [find_zones_fallback]
    rw [fallbackLoop_none dfDict _ d price (dfDict "M15") fetchFn sym hp hr tfFinders]
  refine ⟨hmain, ?_⟩
  rw [hmain]
  cases d <;> rfl

set_option maxRecDepth 10000 in
unseal Rat.add Rat.sub Rat.mul Rat.inv in
/-- Witness for C10: the M30 timeframe holds a nonempty demand side whose
zone even contains the current price, yet with no M15 frame and a bar
source that yields no data the fallback returns empty lists and no
timeframe, and the BUY zone gate rejects. -/
theorem fallback_empty_without_confirmation_witness :
    ((find_m30_zones demandExampleBars).getD ([], [])).1 = [((1 : ℚ), 3)] ∧
    inZoneTol ((1 : ℚ), 3) (some (3/10000)) 2 = true ∧
    find_zones_fallback c10DfDict Dir.BUY 2 "EURUSD" false (fun _ _ => none) =
      ([], [], none) ∧
    zone_gate_passes Dir.BUY
      (find_zones_fallback c10DfDict Dir.BUY 2 "EURUSD" false (fun _ _ => none)) = false :=
  ⟨by decide, by decide,
   (fallback_empty_without_confirmation c10DfDict Dir.BUY 2 "EURUSD" false
     (fun _ _ => none) (by decide) (by decide)).1,
   (fallback_empty_without_confirmation c10DfDict Dir.BUY 2 "EURUSD" false
     (fun _ _ => none) (by decide) (by decide)).2⟩

end FxBot
